import Mathlib

/-!
Shallow embedding of the SRP_data repository (structured retail products):
the typed product model with its pydantic validators (`models.py`), the
append-only product collection, the aggregation engine (`analyzer.py`) and
the HTML report formatter.  Python floats are modelled as rationals, Python
dicts as insertion-ordered association lists, Python sets as
first-occurrence-ordered duplicate-free lists (Python iterates sets in an
unspecified order; no claim depends on that order).
-/

namespace SRP

/-! ### Generic list helpers mirroring Python dict / set / Counter behaviour -/

/-- Python set accumulation: `s.add(x)` followed by `list(s)`, modelled with
first-occurrence order. -/
def addDistinct (l : List String) (x : String) : List String :=
  if x ∈ l then l else l ++ [x]

/-- `list(set(xs))`: distinct values of a list, first occurrence first. -/
def dedupFirst (xs : List String) : List String :=
  xs.foldl addDistinct []

/-- Lookup in an insertion-ordered association list (Python dict access). -/
def lookupA {κ β : Type} [DecidableEq κ] (m : List (κ × β)) (k : κ) : Option β :=
  match m.find? (fun kv => kv.1 = k) with
  | some kv => some kv.2
  | none => none

/-- Python dict assignment `m[k] = v`: overwrite in place if the key exists
(keeping its position), otherwise append. -/
def insertOrUpdate {κ β : Type} [DecidableEq κ] (m : List (κ × β)) (k : κ) (v : β) :
    List (κ × β) :=
  if m.any (fun kv => kv.1 = k) then
    m.map (fun kv => if kv.1 = k then (k, v) else kv)
  else
    m ++ [(k, v)]

/-- One step of `collections.Counter`: increment the count of `k`, creating the
key at the end on first sight. -/
def incKey (m : List (String × Nat)) (k : String) : List (String × Nat) :=
  if m.any (fun kv => kv.1 = k) then
    m.map (fun kv => if kv.1 = k then (kv.1, kv.2 + 1) else kv)
  else
    m ++ [(k, 1)]

/-- `collections.Counter(xs)` as an insertion-ordered association list. -/
def counterOf (xs : List String) : List (String × Nat) :=
  xs.foldl incKey []

/-- Stable insertion of `x` into a list sorted descending by `key`: `x` goes
before the first element whose key is `≤ key x`, as a stable descending sort
places an element arriving later. -/
def insDescBy {α β : Type} [LinearOrder β] (key : α → β) (x : α) : List α → List α
  | [] => [x]
  | y :: ys => if key y ≤ key x then x :: y :: ys else y :: insDescBy key x ys

/-- Stable sort, descending by `key`: the behaviour of Python's
`sort(key=..., reverse=True)` and of `heapq.nlargest` used by
`Counter.most_common`. -/
def sortDescBy {α β : Type} [LinearOrder β] (key : α → β) : List α → List α
  | [] => []
  | x :: xs => insDescBy key x (sortDescBy key xs)

/-- Boolean list-prefix test. -/
def isPrefOf : List Char → List Char → Bool
  | [], _ => true
  | _ :: _, [] => false
  | a :: as, b :: bs => a == b && isPrefOf as bs

/-- Boolean substring test on character lists (Python `needle in hay`). -/
def containsSub (needle : List Char) : List Char → Bool
  | [] => isPrefOf needle []
  | c :: rest => isPrefOf needle (c :: rest) || containsSub needle rest

/-- Python `needle in hay` on strings. -/
def strContainsSub (hay needle : String) : Bool :=
  containsSub needle.toList hay.toList

/-! ### Domain enumerations (`models.py`) -/

/-- `Country` enum. -/
inductive Country
  | FRANCE
  | BELGIUM
deriving DecidableEq, Repr

/-- String value of a `Country` member. -/
def Country.value : Country → String
  | .FRANCE => "FR"
  | .BELGIUM => "BE"

/-- Iteration order of `for country in Country`. -/
def Country.all : List Country := [.FRANCE, .BELGIUM]

/-- `Currency` enum. -/
inductive Currency
  | EUR
  | USD
  | GBP
  | CHF
  | JPY
deriving DecidableEq, Repr

/-- String value of a `Currency` member. -/
def Currency.value : Currency → String
  | .EUR => "EUR"
  | .USD => "USD"
  | .GBP => "GBP"
  | .CHF => "CHF"
  | .JPY => "JPY"

/-- Iteration order of `for currency in Currency`. -/
def Currency.all : List Currency := [.EUR, .USD, .GBP, .CHF, .JPY]

/-- `ProductType` enum. -/
inductive ProductType
  | BOND
  | NOTE
  | CERTIFICATE
  | WARRANT
  | OPTION
  | FUTURE
  | SWAP
  | OTHER
deriving DecidableEq, Repr

/-- String value of a `ProductType` member. -/
def ProductType.value : ProductType → String
  | .BOND => "bond"
  | .NOTE => "note"
  | .CERTIFICATE => "certificate"
  | .WARRANT => "warrant"
  | .OPTION => "option"
  | .FUTURE => "future"
  | .SWAP => "swap"
  | .OTHER => "other"

/-- Iteration order of `for product_type in ProductType`. -/
def ProductType.all : List ProductType :=
  [.BOND, .NOTE, .CERTIFICATE, .WARRANT, .OPTION, .FUTURE, .SWAP, .OTHER]

/-- `RiskLevel` enum (string-valued "1".."5"). -/
inductive RiskLevel
  | VERY_LOW
  | LOW
  | MEDIUM
  | HIGH
  | VERY_HIGH
deriving DecidableEq, Repr

/-- String value of a `RiskLevel` member. -/
def RiskLevel.value : RiskLevel → String
  | .VERY_LOW => "1"
  | .LOW => "2"
  | .MEDIUM => "3"
  | .HIGH => "4"
  | .VERY_HIGH => "5"

/-- Iteration order of `for risk_level in RiskLevel`. -/
def RiskLevel.all : List RiskLevel := [.VERY_LOW, .LOW, .MEDIUM, .HIGH, .VERY_HIGH]

/-! ### Dates -/

/-- A calendar date (`datetime.date`); comparisons are lexicographic on
(year, month, day) like Python date comparison. -/
structure Date where
  year : Nat
  month : Nat
  day : Nat
deriving DecidableEq, Repr

/-- Python `a < b` on dates. -/
def Date.lt (a b : Date) : Bool :=
  a.year < b.year ||
    (a.year == b.year &&
      (a.month < b.month || (a.month == b.month && a.day < b.day)))

/-- Python `a <= b` on dates. -/
def Date.le (a b : Date) : Bool :=
  Date.lt a b || a == b

/-! ### Product record (`SRPProduct`) -/

/-- A validated SRP product record.  The two audit timestamps
`created_at` / `updated_at` (set to the current instant at construction) are
outside the model; no analysed quantity reads them. -/
structure SRPProduct where
  product_id : String
  product_name : String
  issuer : String
  country : Country
  currency : Currency
  issue_date : Date
  maturity_date : Option Date
  nominal_value : ℚ
  coupon_rate : Option ℚ
  product_type : ProductType
  underlying_asset : Option String := none
  risk_level : RiskLevel
  rating : Option String := none
  isin : Option String := none
  cusip : Option String := none
  min_investment : Option ℚ := none
  max_investment : Option ℚ := none
  liquidity : Option String := none
  fees : Option ℚ := none
deriving DecidableEq, Repr

/-- The error messages raised by the three pydantic validators
(`validate_maturity_date`, `validate_nominal_value`, `validate_coupon_rate`),
collected in field-declaration order as pydantic v1 runs them; `issue_date`
is a typed argument here, so it is always available to the maturity check. -/
def validationErrors (issue_date : Date) (maturity_date : Option Date)
    (nominal_value : ℚ) (coupon_rate : Option ℚ) : List String :=
  (match maturity_date with
   | some m =>
       if Date.le m issue_date then ["maturity_date must be later than issue_date"] else []
   | none => []) ++
  (if nominal_value ≤ 0 then ["nominal_value must be positive"] else []) ++
  (match coupon_rate with
   | some c => if c < 0 ∨ c > 100 then ["coupon_rate must be between 0 and 100"] else []
   | none => [])

/-- `SRPProduct(...)`: pydantic construction.  Enum and type coercions are
carried by the argument types; the three field validators decide success.
Succeeds with the fully populated record or fails with the collected
validation errors. -/
def mkSRPProduct (product_id product_name issuer : String) (country : Country)
    (currency : Currency) (issue_date : Date) (maturity_date : Option Date)
    (nominal_value : ℚ) (coupon_rate : Option ℚ) (product_type : ProductType)
    (underlying_asset : Option String) (risk_level : RiskLevel)
    (rating isin cusip : Option String) (min_investment max_investment : Option ℚ)
    (liquidity : Option String) (fees : Option ℚ) :
    Except (List String) SRPProduct :=
  match validationErrors issue_date maturity_date nominal_value coupon_rate with
  | [] => .ok
      { product_id := product_id
        product_name := product_name
        issuer := issuer
        country := country
        currency := currency
        issue_date := issue_date
        maturity_date := maturity_date
        nominal_value := nominal_value
        coupon_rate := coupon_rate
        product_type := product_type
        underlying_asset := underlying_asset
        risk_level := risk_level
        rating := rating
        isin := isin
        cusip := cusip
        min_investment := min_investment
        max_investment := max_investment
        liquidity := liquidity
        fees := fees }
  | errs => .error errs

/-! ### Product collection (`SRPProductList`) -/

/-- `SRPProductList`: ordered products plus derived summary metadata.
`date_range` is declared in the source but never written by `add_product`. -/
structure SRPProductList where
  products : List SRPProduct := []
  total_count : Nat := 0
  countries : List Country := []
  currencies : List Currency := []
  date_range : List (String × Date) := []
deriving DecidableEq, Repr

/-- `SRPProductList.add_product`: append the product, refresh `total_count`,
record a previously-unseen country or currency. -/
def SRPProductList.add_product (l : SRPProductList) (p : SRPProduct) : SRPProductList :=
  let ps := l.products ++ [p]
  { l with
    products := ps
    total_count := ps.length
    countries := if p.country ∈ l.countries then l.countries else l.countries ++ [p.country]
    currencies :=
      if p.currency ∈ l.currencies then l.currencies else l.currencies ++ [p.currency] }

/-! ### Aggregation result (`SRPAnalysis`) -/

/-- A value stored in one of the heterogeneous statistics dicts built by the
analyzer. -/
inductive StatValue
  | count (n : Nat)
  | num (q : ℚ)
  | optNum (q : Option ℚ)
  | strs (l : List String)
  | counter (c : List (String × Nat))
  | issuerCounts (l : List (String × Nat))
deriving DecidableEq, Repr

/-- One entry of the global `top_issuers` ranking (the dict with keys
issuer, count, total_value, average_value, countries, currencies,
product_types). -/
structure IssuerEntry where
  issuer : String
  count : Nat
  total_value : ℚ
  average_value : ℚ
  countries : List String
  currencies : List String
  product_types : List String
deriving DecidableEq, Repr, Inhabited

/-- `SRPAnalysis`: the aggregation result, with every field at its
pydantic default. -/
structure SRPAnalysis where
  total_products : Nat := 0
  total_value : ℚ := 0
  average_nominal_value : ℚ := 0
  by_country : List (Country × List (String × StatValue)) := []
  by_currency : List (Currency × List (String × StatValue)) := []
  by_risk_level : List (RiskLevel × List (String × StatValue)) := []
  by_product_type : List (ProductType × List (String × StatValue)) := []
  top_issuers : List IssuerEntry := []
  monthly_evolution : List (String × List (String × StatValue)) := []
deriving DecidableEq, Repr

/-- The analysis a fresh `SRPAnalyzer` starts from (`SRPAnalysis()`). -/
def initialAnalysis : SRPAnalysis := {}

/-- `sum(p.nominal_value for p in ps)`. -/
def sumNominal (ps : List SRPProduct) : ℚ :=
  (ps.map (fun p => p.nominal_value)).sum

/-- `_get_top_issuers`: `Counter(p.issuer for p in products).most_common(limit)`;
`most_common` sorts descending by count, stable, and truncates. -/
def getTopIssuers (ps : List SRPProduct) (limit : Nat) : List (String × Nat) :=
  (sortDescBy (fun kv => kv.2) (counterOf (ps.map (fun p => p.issuer)))).take limit

/-- `_calculate_average_coupon`: mean of the non-null coupon rates, `none` when
every coupon is null. -/
def calculateAverageCoupon (ps : List SRPProduct) : Option ℚ :=
  let coupons := ps.filterMap (fun p => p.coupon_rate)
  if coupons.isEmpty then none else some (coupons.sum / (coupons.length : ℚ))

/-- The `country_stats` dict of `_analyze_by_country`. -/
def countryStats (cps : List SRPProduct) : List (String × StatValue) :=
  [("count", .count cps.length),
   ("total_value", .num (sumNominal cps)),
   ("average_value", .num (sumNominal cps / (cps.length : ℚ))),
   ("currencies", .strs (dedupFirst (cps.map (fun p => p.currency.value)))),
   ("product_types", .strs (dedupFirst (cps.map (fun p => p.product_type.value)))),
   ("risk_distribution", .counter (counterOf (cps.map (fun p => p.risk_level.value)))),
   ("top_issuers", .issuerCounts (getTopIssuers cps 5))]

/-- The `currency_stats` dict of `_analyze_by_currency`. -/
def currencyStats (cps : List SRPProduct) : List (String × StatValue) :=
  [("count", .count cps.length),
   ("total_value", .num (sumNominal cps)),
   ("average_value", .num (sumNominal cps / (cps.length : ℚ))),
   ("countries", .strs (dedupFirst (cps.map (fun p => p.country.value)))),
   ("product_types", .strs (dedupFirst (cps.map (fun p => p.product_type.value)))),
   ("risk_distribution", .counter (counterOf (cps.map (fun p => p.risk_level.value))))]

/-- The `risk_stats` dict of `_analyze_by_risk_level`; it carries no
`risk_distribution` entry. -/
def riskStats (rps : List SRPProduct) : List (String × StatValue) :=
  [("count", .count rps.length),
   ("total_value", .num (sumNominal rps)),
   ("average_value", .num (sumNominal rps / (rps.length : ℚ))),
   ("countries", .strs (dedupFirst (rps.map (fun p => p.country.value)))),
   ("currencies", .strs (dedupFirst (rps.map (fun p => p.currency.value)))),
   ("product_types", .strs (dedupFirst (rps.map (fun p => p.product_type.value)))),
   ("top_issuers", .issuerCounts (getTopIssuers rps 3))]

/-- The `type_stats` dict of `_analyze_by_product_type`; its `average_coupon`
value is the `Optional[float]` returned by `_calculate_average_coupon`. -/
def typeStats (tps : List SRPProduct) : List (String × StatValue) :=
  [("count", .count tps.length),
   ("total_value", .num (sumNominal tps)),
   ("average_value", .num (sumNominal tps / (tps.length : ℚ))),
   ("countries", .strs (dedupFirst (tps.map (fun p => p.country.value)))),
   ("currencies", .strs (dedupFirst (tps.map (fun p => p.currency.value)))),
   ("risk_distribution", .counter (counterOf (tps.map (fun p => p.risk_level.value)))),
   ("average_coupon", .optNum (calculateAverageCoupon tps))]

/-- The shared shape of the four `_analyze_by_*` methods: iterate the enum
members in order, keep only non-empty partitions, and assign the partition's
stats dict into the (possibly pre-populated) breakdown dict. -/
def analyzeDim {κ : Type} [DecidableEq κ] (keys : List κ) (keyOf : SRPProduct → κ)
    (stats : List SRPProduct → List (String × StatValue)) (ps : List SRPProduct)
    (acc : List (κ × List (String × StatValue))) : List (κ × List (String × StatValue)) :=
  keys.foldl
    (fun m k =>
      let kps := ps.filter (fun p => keyOf p = k)
      if kps.isEmpty then m else insertOrUpdate m k (stats kps))
    acc

/-- The per-issuer accumulator of `_analyze_top_issuers`
(`defaultdict` entry: count, total_value and the three seen-value sets). -/
structure IssuerAcc where
  count : Nat := 0
  total_value : ℚ := 0
  countries : List String := []
  currencies : List String := []
  product_types : List String := []
deriving DecidableEq, Repr

/-- One loop iteration of `_analyze_top_issuers`: update the accumulator of
`p.issuer`, creating the defaultdict entry on first sight. -/
def issuerStep (m : List (String × IssuerAcc)) (p : SRPProduct) : List (String × IssuerAcc) :=
  let upd : IssuerAcc → IssuerAcc := fun a =>
    { count := a.count + 1
      total_value := a.total_value + p.nominal_value
      countries := addDistinct a.countries p.country.value
      currencies := addDistinct a.currencies p.currency.value
      product_types := addDistinct a.product_types p.product_type.value }
  if m.any (fun kv => kv.1 = p.issuer) then
    m.map (fun kv => if kv.1 = p.issuer then (kv.1, upd kv.2) else kv)
  else
    m ++ [(p.issuer, upd {})]

/-- The `issuer_stats` accumulation loop of `_analyze_top_issuers`. -/
def issuerStats (ps : List SRPProduct) : List (String × IssuerAcc) :=
  ps.foldl issuerStep []

/-- Finalisation of one issuer entry in `_analyze_top_issuers`. -/
def issuerEntryOf (kv : String × IssuerAcc) : IssuerEntry :=
  { issuer := kv.1
    count := kv.2.count
    total_value := kv.2.total_value
    average_value := kv.2.total_value / (kv.2.count : ℚ)
    countries := kv.2.countries
    currencies := kv.2.currencies
    product_types := kv.2.product_types }

/-- `_analyze_top_issuers`: group by issuer, finalise, sort descending by
total value (Python's stable sort with `reverse=True`), keep the top 10. -/
def analyzeTopIssuers (ps : List SRPProduct) : List IssuerEntry :=
  (sortDescBy (fun e => e.total_value) ((issuerStats ps).map issuerEntryOf)).take 10

/-- `f"{n:02d}"` for the month component. -/
def pad2 (n : Nat) : String :=
  if n < 10 then "0" ++ toString n else toString n

/-- The month key `f"{year}-{month:02d}"` of `_analyze_temporal_evolution`. -/
def monthKey (d : Date) : String :=
  toString d.year ++ "-" ++ pad2 d.month

/-- The per-month accumulator of `_analyze_temporal_evolution`. -/
structure MonthAcc where
  count : Nat := 0
  total_value : ℚ := 0
  countries : List String := []
  currencies : List String := []
deriving DecidableEq, Repr

/-- One loop iteration of `_analyze_temporal_evolution`. -/
def monthStep (m : List (String × MonthAcc)) (p : SRPProduct) : List (String × MonthAcc) :=
  let k := monthKey p.issue_date
  let upd : MonthAcc → MonthAcc := fun a =>
    { count := a.count + 1
      total_value := a.total_value + p.nominal_value
      countries := addDistinct a.countries p.country.value
      currencies := addDistinct a.currencies p.currency.value }
  if m.any (fun kv => kv.1 = k) then
    m.map (fun kv => if kv.1 = k then (kv.1, upd kv.2) else kv)
  else
    m ++ [(k, upd {})]

/-- Finalisation of one month's stats dict. -/
def monthStatsOf (a : MonthAcc) : List (String × StatValue) :=
  [("count", .count a.count),
   ("total_value", .num a.total_value),
   ("average_value", .num (if a.count > 0 then a.total_value / (a.count : ℚ) else 0)),
   ("countries", .strs a.countries),
   ("currencies", .strs a.currencies)]

/-- `_analyze_temporal_evolution`: accumulate by month key, then write each
month's final dict into the (possibly pre-populated) `monthly_evolution`. -/
def analyzeMonthly (ps : List SRPProduct) (acc : List (String × List (String × StatValue))) :
    List (String × List (String × StatValue)) :=
  (ps.foldl monthStep []).foldl (fun m kv => insertOrUpdate m kv.1 (monthStatsOf kv.2)) acc

/-- `SRPAnalyzer.analyze_products` with the collection passed explicitly:
on an empty collection it returns the analyzer's current `self.analysis`
unchanged (`st`); otherwise it writes every recomputed field into
`self.analysis`, the four breakdown dicts and `monthly_evolution` being
updated in place (stale keys from an earlier analysis survive) while the
scalars and `top_issuers` are overwritten. -/
def analyzeProducts (st : SRPAnalysis) (l : SRPProductList) : SRPAnalysis :=
  if l.products.isEmpty then st
  else
    let ps := l.products
    { total_products := ps.length
      total_value := sumNominal ps
      average_nominal_value := sumNominal ps / (ps.length : ℚ)
      by_country := analyzeDim Country.all (fun p => p.country) countryStats ps st.by_country
      by_currency := analyzeDim Currency.all (fun p => p.currency) currencyStats ps st.by_currency
      by_risk_level := analyzeDim RiskLevel.all (fun p => p.risk_level) riskStats ps st.by_risk_level
      by_product_type :=
        analyzeDim ProductType.all (fun p => p.product_type) typeStats ps st.by_product_type
      top_issuers := analyzeTopIssuers ps
      monthly_evolution := analyzeMonthly ps st.monthly_evolution }

/-! ### Filtering (`get_filtered_products`) -/

/-- A value stored in the filter dictionary. -/
inductive FVal
  | str (s : String)
  | num (q : ℚ)
deriving DecidableEq, Repr

/-- Dict lookup in the filter dictionary. -/
def lookupF (fs : List (String × FVal)) (k : String) : Option FVal :=
  lookupA fs k

/-- The filter keys `get_filtered_products` recognises, in the order the code
tests them. -/
def knownFilterKeys : List String :=
  ["country", "currency", "product_type", "risk_level",
   "min_nominal_value", "max_nominal_value", "issuer"]

/-- An equality filter step such as
`[p for p in products if p.country.value == filters["country"]]`; Python
equality between a string field value and a non-string filter value is `False`
for every element. -/
def eqFilter (valOf : SRPProduct → String) (v : FVal) (ps : List SRPProduct) :
    List SRPProduct :=
  match v with
  | .str s => ps.filter (fun p => valOf p = s)
  | .num _ => ps.filter (fun _ => false)

/-- Applies the equality filter for `key` when the key is supplied. -/
def applyOptEq (fs : List (String × FVal)) (key : String) (valOf : SRPProduct → String)
    (ps : List SRPProduct) : List SRPProduct :=
  match lookupF fs key with
  | some v => eqFilter valOf v ps
  | none => ps

/-- A numeric comparison filter step; comparing a float field with a string
filter value raises `TypeError` in Python, but the comparison only runs once
per element, so the error occurs only when the list reaching this step is
non-empty. -/
def cmpFilter (keep : SRPProduct → ℚ → Bool) (v : FVal) (ps : List SRPProduct) :
    Except String (List SRPProduct) :=
  match v with
  | .num q => .ok (ps.filter (fun p => keep p q))
  | .str _ => if ps.isEmpty then .ok ps else .error "TypeError: float compared with str"

/-- The issuer substring filter step
`[p for p in products if filters["issuer"].lower() in p.issuer.lower()]`;
`.lower()` on a non-string filter value raises `AttributeError`, again only
when an element is reached. -/
def issuerFilter (v : FVal) (ps : List SRPProduct) : Except String (List SRPProduct) :=
  match v with
  | .str s => .ok (ps.filter (fun p => strContainsSub p.issuer.toLower s.toLower))
  | .num _ => if ps.isEmpty then .ok ps else .error "AttributeError: float has no lower"

/-- `SRPAnalyzer.get_filtered_products` with the stored collection passed
explicitly: the seven recognised filters applied in sequence, unknown keys
never consulted. -/
def getFilteredProducts (fs : List (String × FVal)) (ps : List SRPProduct) :
    Except String (List SRPProduct) :=
  let ps1 := applyOptEq fs "country" (fun p => p.country.value) ps
  let ps2 := applyOptEq fs "currency" (fun p => p.currency.value) ps1
  let ps3 := applyOptEq fs "product_type" (fun p => p.product_type.value) ps2
  let ps4 := applyOptEq fs "risk_level" (fun p => p.risk_level.value) ps3
  do
    let ps5 ←
      match lookupF fs "min_nominal_value" with
      | some v => cmpFilter (fun p q => q ≤ p.nominal_value) v ps4
      | none => Except.ok ps4
    let ps6 ←
      match lookupF fs "max_nominal_value" with
      | some v => cmpFilter (fun p q => p.nominal_value ≤ q) v ps5
      | none => Except.ok ps5
    match lookupF fs "issuer" with
    | some v => issuerFilter v ps6
    | none => Except.ok ps6

/-- Spec-side single-key equality predicate: the record matches when the key
is absent or its string field equals the supplied string. -/
def eqPred (fs : List (String × FVal)) (key : String) (valOf : SRPProduct → String)
    (p : SRPProduct) : Bool :=
  match lookupF fs key with
  | some (.str s) => valOf p = s
  | some (.num _) => false
  | none => true

/-- Spec-side minimum-nominal-value predicate. -/
def minPred (fs : List (String × FVal)) (p : SRPProduct) : Bool :=
  match lookupF fs "min_nominal_value" with
  | some (.num q) => q ≤ p.nominal_value
  | some (.str _) => true
  | none => true

/-- Spec-side maximum-nominal-value predicate. -/
def maxPred (fs : List (String × FVal)) (p : SRPProduct) : Bool :=
  match lookupF fs "max_nominal_value" with
  | some (.num q) => p.nominal_value ≤ q
  | some (.str _) => true
  | none => true

/-- Spec-side case-insensitive issuer-substring predicate. -/
def issuerPred (fs : List (String × FVal)) (p : SRPProduct) : Bool :=
  match lookupF fs "issuer" with
  | some (.str s) => strContainsSub p.issuer.toLower s.toLower
  | some (.num _) => true
  | none => true

/-- Spec-side reading of the filtering operation, for the refinement claim:
the conjunction of all supplied predicates (country equals, currency equals,
product type equals, risk level equals, nominal value at least, nominal value
at most, issuer contains substring case-insensitively); a key absent from the
dictionary imposes no constraint. -/
def matchesAllFilters (fs : List (String × FVal)) (p : SRPProduct) : Bool :=
  eqPred fs "country" (fun p => p.country.value) p &&
  eqPred fs "currency" (fun p => p.currency.value) p &&
  eqPred fs "product_type" (fun p => p.product_type.value) p &&
  eqPred fs "risk_level" (fun p => p.risk_level.value) p &&
  minPred fs p && maxPred fs p && issuerPred fs p

/-! ### Report formatter (`generate_report` / `_generate_html_report`) -/

/-- Rendering of a number in the report; abstracts Python's
thousands-separated `:,` and `:,.0f` format specs, on which no claim
depends. -/
def fmtNum (q : ℚ) : String := toString q

/-- The `<style>` block of the report template. -/
def reportStyle : String :=
  "\n<style>\nbody \x7b font-family: Arial, sans-serif; margin: 20px; \x7d\n" ++
  ".header \x7b background-color: #f0f0f0; padding: 20px; border-radius: 5px; \x7d\n" ++
  ".section \x7b margin: 20px 0; padding: 15px; border: 1px solid #ddd; border-radius: 5px; \x7d\n" ++
  ".stats \x7b display: grid; grid-template-columns: repeat(auto-fit, minmax(200px, 1fr)); gap: 15px; \x7d\n" ++
  ".stat-card \x7b background-color: #f9f9f9; padding: 15px; border-radius: 5px; text-align: center; \x7d\n" ++
  ".stat-value \x7b font-size: 24px; font-weight: bold; color: #2c5aa0; \x7d\n" ++
  ".stat-label \x7b color: #666; margin-top: 5px; \x7d\n" ++
  "table \x7b width: 100%; border-collapse: collapse; margin: 10px 0; \x7d\n" ++
  "th, td \x7b border: 1px solid #ddd; padding: 8px; text-align: left; \x7d\n" ++
  "th \x7b background-color: #f2f2f2; \x7d\n</style>\n"

/-- One `stat-card` div of the report. -/
def statCard (v label : String) : String :=
  "<div class=\"stat-card\">\n<div class=\"stat-value\">" ++ v ++
  "</div>\n<div class=\"stat-label\">" ++ label ++ "</div>\n</div>\n"

/-- Rendering of one value out of a statistics dict (`stats['count']` etc.). -/
def statStr (b : List (String × StatValue)) (k : String) : String :=
  match lookupA b k with
  | some (.count n) => toString n
  | some (.num q) => fmtNum q
  | some (.optNum (some q)) => fmtNum q
  | some (.optNum none) => "None"
  | some (.strs l) => toString l
  | some (.counter c) => toString c
  | some (.issuerCounts c) => toString c
  | none => ""

/-- The fixed markup of the report head up to the generation timestamp. -/
def reportHeadPre : String :=
  "<!DOCTYPE html>\n<html lang=\"fr\">\n<head>\n<meta charset=\"UTF-8\">\n" ++
  "<meta name=\"viewport\" content=\"width=device-width, initial-scale=1.0\">\n" ++
  "<title>Rapport d\x27analyse SRP</title>" ++ reportStyle ++ "</head>\n<body>\n" ++
  "<div class=\"header\">\n<h1>📊 Rapport d\x27analyse des produits SRP</h1>\n<p>"

/-- The overall-statistics section of the report, after the timestamp. -/
def reportHeadPost (a : SRPAnalysis) : String :=
  "</p>\n</div>\n" ++
  "<div class=\"section\">\n<h2>📈 Statistiques générales</h2>\n<div class=\"stats\">\n" ++
  statCard (toString a.total_products) "Total produits" ++
  statCard (fmtNum a.total_value ++ " €") "Valeur totale" ++
  statCard (fmtNum a.average_nominal_value ++ " €") "Valeur moyenne" ++
  "</div>\n</div>\n"

/-- The fixed head of the report plus the overall-statistics section, with the
generation timestamp `now` interpolated (`datetime.now().strftime(...)`). -/
def reportHead (a : SRPAnalysis) (now : String) : String :=
  reportHeadPre ++ ("Généré le " ++ now) ++ reportHeadPost a

/-- The body rendered for one country of `_generate_country_section`. -/
def countrySectionBody (kv : Country × List (String × StatValue)) : String :=
  "<h3>" ++ kv.1.value ++ "</h3>\n<div class=\"stats\">\n" ++
  statCard (statStr kv.2 "count") "Produits" ++
  statCard (statStr kv.2 "total_value" ++ " €") "Valeur totale" ++
  statCard (statStr kv.2 "average_value" ++ " €") "Valeur moyenne" ++
  "</div>\n"

/-- `_generate_country_section`. -/
def generateCountrySection (a : SRPAnalysis) : String :=
  "<div class=\"section\">\n<h2>🌍 Analyse par pays</h2>\n" ++
  String.join (a.by_country.map countrySectionBody) ++ "</div>"

/-- The body rendered for one currency of `_generate_currency_section`. -/
def currencySectionBody (kv : Currency × List (String × StatValue)) : String :=
  "<h3>" ++ kv.1.value ++ "</h3>\n<div class=\"stats\">\n" ++
  statCard (statStr kv.2 "count") "Produits" ++
  statCard (statStr kv.2 "total_value") "Valeur totale" ++
  "</div>\n"

/-- `_generate_currency_section`. -/
def generateCurrencySection (a : SRPAnalysis) : String :=
  "<div class=\"section\">\n<h2>💰 Analyse par devise</h2>\n" ++
  String.join (a.by_currency.map currencySectionBody) ++ "</div>"

/-- The `risk_labels` mapping of `_generate_risk_section`. -/
def riskLabel (v : String) : String :=
  if v = "1" then "Très faible"
  else if v = "2" then "Faible"
  else if v = "3" then "Moyen"
  else if v = "4" then "Élevé"
  else if v = "5" then "Très élevé"
  else "Inconnu"

/-- The body rendered for one risk level of `_generate_risk_section`. -/
def riskSectionBody (kv : RiskLevel × List (String × StatValue)) : String :=
  "<h3>Niveau " ++ kv.1.value ++ " - " ++ riskLabel kv.1.value ++ "</h3>\n<div class=\"stats\">\n" ++
  statCard (statStr kv.2 "count") "Produits" ++
  statCard (statStr kv.2 "total_value" ++ " €") "Valeur totale" ++
  "</div>\n"

/-- `_generate_risk_section`. -/
def generateRiskSection (a : SRPAnalysis) : String :=
  "<div class=\"section\">\n<h2>⚠️ Analyse par niveau de risque</h2>\n" ++
  String.join (a.by_risk_level.map riskSectionBody) ++ "</div>"

/-- One row of the issuer ranking table. -/
def issuerRow (e : IssuerEntry) : String :=
  "<tr>\n<td>" ++ e.issuer ++ "</td>\n<td>" ++ toString e.count ++ "</td>\n<td>" ++
  fmtNum e.total_value ++ " €</td>\n<td>" ++ fmtNum e.average_value ++ " €</td>\n</tr>\n"

/-- `_generate_issuers_section`: the issuer ranking table (re-truncated to 10). -/
def generateIssuersSection (a : SRPAnalysis) : String :=
  "<div class=\"section\">\n<h2>🏦 Principaux émetteurs</h2>\n<table>\n<thead>\n<tr>\n" ++
  "<th>Émetteur</th>\n<th>Nombre de produits</th>\n<th>Valeur totale</th>\n" ++
  "<th>Valeur moyenne</th>\n</tr>\n</thead>\n<tbody>\n" ++
  String.join ((a.top_issuers.take 10).map issuerRow) ++ "</tbody>\n</table>\n</div>\n"

/-- `_generate_html_report`: head and overall statistics, then one section per
non-empty dimension among country, currency and risk level, then the issuer
table when `top_issuers` is non-empty. -/
def generateHTMLReport (a : SRPAnalysis) (now : String) : String :=
  reportHead a now ++
  (if a.by_country.isEmpty then "" else generateCountrySection a) ++
  (if a.by_currency.isEmpty then "" else generateCurrencySection a) ++
  (if a.by_risk_level.isEmpty then "" else generateRiskSection a) ++
  (if a.top_issuers.isEmpty then "" else generateIssuersSection a) ++
  "</body>\n</html>\n"

/-- `generate_report` (minus file output): the whole-report placeholder when
`total_products` is zero (falsy), the HTML report otherwise. -/
def generateReport (a : SRPAnalysis) (now : String) : String :=
  if a.total_products = 0 then "<p>Aucune donnée à analyser</p>"
  else generateHTMLReport a now

/-! ### Statement-side helper notions -/

/-- Index of the first occurrence of `s` in `xs` (first-encountered insertion
order of an issuer). -/
def firstIdx (xs : List String) (s : String) : Nat :=
  xs.findIdx (fun t => t = s)

/-- A statistics bundle carries the count, the sum of nominal values and the
mean nominal value of its partition. -/
def bundleHasBasics (b : List (String × StatValue)) (q : List SRPProduct) : Prop :=
  lookupA b "count" = some (.count q.length) ∧
  lookupA b "total_value" = some (.num (sumNominal q)) ∧
  lookupA b "average_value" = some (.num (sumNominal q / (q.length : ℚ)))

/-- A statistics bundle carries, under `key`, exactly the distinct members of
`vals`. -/
def bundleHasDistinct (b : List (String × StatValue)) (key : String)
    (vals : List String) : Prop :=
  ∃ ls, lookupA b key = some (.strs ls) ∧ ∀ s, s ∈ ls ↔ s ∈ vals

/-- A statistics bundle carries a risk-level frequency distribution: the
counter maps each value occurring in `vals` to its number of occurrences and
holds no other key. -/
def bundleHasRiskDist (b : List (String × StatValue)) (vals : List String) : Prop :=
  ∃ c, lookupA b "risk_distribution" = some (.counter c) ∧
    ∀ s, lookupA c s = if s ∈ vals then some (vals.count s) else none

/-! ### Concrete sample data (used by witnesses and counterexamples) -/

/-- A French EUR bond, as in the repository's tests. -/
def sampleFR : SRPProduct :=
  { product_id := "TEST_001", product_name := "Test Product 1", issuer := "Test Bank A",
    country := .FRANCE, currency := .EUR, issue_date := ⟨2024, 8, 15⟩, maturity_date := none,
    nominal_value := 10000, coupon_rate := none, product_type := .BOND, risk_level := .MEDIUM }

/-- A Belgian USD note, as in the repository's tests. -/
def sampleBE : SRPProduct :=
  { product_id := "TEST_002", product_name := "Test Product 2", issuer := "Test Bank B",
    country := .BELGIUM, currency := .USD, issue_date := ⟨2024, 8, 16⟩, maturity_date := none,
    nominal_value := 15000, coupon_rate := none, product_type := .NOTE, risk_level := .LOW }

/-- The empty collection. -/
def emptyColl : SRPProductList := {}

/-- A collection holding only `sampleFR`. -/
def collFR : SRPProductList := SRPProductList.add_product {} sampleFR

/-- A collection holding only `sampleBE`. -/
def collBE : SRPProductList := SRPProductList.add_product {} sampleBE

/-- The two-record collection of the spec's worked scenario. -/
def coll2 : SRPProductList := (SRPProductList.add_product {} sampleFR).add_product sampleBE

/-- An aggregation result with two products counted but every breakdown empty:
the analyzer never produces it, but the report formatter accepts any
`SRPAnalysis`. -/
def analysisNoDims : SRPAnalysis :=
  { total_products := 2, total_value := 25000, average_nominal_value := 12500 }

/-- A record with maturity date and coupon rate present, satisfying every
validation rule. -/
def sampleValid : SRPProduct :=
  { product_id := "TEST_003", product_name := "Test Product 3", issuer := "Test Bank A",
    country := .FRANCE, currency := .EUR, issue_date := ⟨2024, 8, 15⟩,
    maturity_date := some ⟨2025, 8, 15⟩, nominal_value := 10000, coupon_rate := some 5,
    product_type := .BOND, risk_level := .MEDIUM }

/-- A record whose id, name and issuer are all the empty string. -/
def emptyStringsProduct : SRPProduct :=
  { product_id := "", product_name := "", issuer := "",
    country := .FRANCE, currency := .EUR, issue_date := ⟨2024, 8, 15⟩, maturity_date := none,
    nominal_value := 1000, coupon_rate := none, product_type := .BOND, risk_level := .MEDIUM }

/-! ## Lemmas about the dict / set / Counter helpers -/

theorem lookupA_nil {κ β : Type} [DecidableEq κ] (k : κ) :
    lookupA ([] : List (κ × β)) k = none := rfl

theorem lookupA_cons {κ β : Type} [DecidableEq κ] (a : κ × β) (m : List (κ × β)) (k : κ) :
    lookupA (a :: m) k = if a.1 = k then some a.2 else lookupA m k := by
  by_cases h : a.1 = k
  · simp [lookupA, List.find?, h]
  · simp [lookupA, List.find?, h]

theorem lookupA_append {κ β : Type} [DecidableEq κ] (m m' : List (κ × β)) (k : κ) :
    lookupA (m ++ m') k =
      match lookupA m k with
      | some v => some v
      | none => lookupA m' k := by
  induction m with
  | nil => simp [lookupA_nil]
  | cons a m ih =>
    by_cases h : a.1 = k
    · simp [lookupA_cons, h]
    · simp [lookupA_cons, h, ih]

theorem lookupA_map_update_self {κ β : Type} [DecidableEq κ] (m : List (κ × β)) (k : κ)
    (v : β) (hm : m.any (fun kv => kv.1 = k) = true) :
    lookupA (m.map (fun kv => if kv.1 = k then (k, v) else kv)) k = some v := by
  induction m with
  | nil => simp at hm
  | cons a m ih =>
    by_cases h : a.1 = k
    · simp [lookupA_cons, h]
    · have hm' : m.any (fun kv => kv.1 = k) = true := by
        simpa [List.any_cons, h] using hm
      simp [lookupA_cons, h, ih hm']

theorem lookupA_map_update_ne {κ β : Type} [DecidableEq κ] (m : List (κ × β)) (k : κ)
    (v : β) (k' : κ) (h : k' ≠ k) :
    lookupA (m.map (fun kv => if kv.1 = k then (k, v) else kv)) k' = lookupA m k' := by
  induction m with
  | nil => simp
  | cons a m ih =>
    by_cases ha : a.1 = k
    · have : k ≠ k' := fun hh => h hh.symm
      simp [lookupA_cons, ha, this, ih]
    · simp [lookupA_cons, ha, ih]

theorem lookupA_eq_none_of_not_any {κ β : Type} [DecidableEq κ] (m : List (κ × β)) (k : κ)
    (hm : m.any (fun kv => kv.1 = k) = false) :
    lookupA m k = none := by
  induction m with
  | nil => rfl
  | cons a m ih =>
    simp only [List.any_cons, Bool.or_eq_false_iff] at hm
    have h1 : ¬ a.1 = k := of_decide_eq_false hm.1
    simp [lookupA_cons, h1, ih hm.2]

theorem lookupA_insertOrUpdate {κ β : Type} [DecidableEq κ] (m : List (κ × β)) (k : κ)
    (v : β) (k' : κ) :
    lookupA (insertOrUpdate m k v) k' = if k' = k then some v else lookupA m k' := by
  unfold insertOrUpdate
  cases hm : m.any (fun kv => kv.1 = k) <;> by_cases h : k' = k
  · subst h
    simp [hm, lookupA_append, lookupA_eq_none_of_not_any m k' hm, lookupA_cons]
  · have h2 : ¬ k = k' := fun hh => h hh.symm
    simp only [hm, Bool.false_eq_true, if_false, lookupA_append, lookupA_cons, lookupA_nil,
      h2, h, if_false]
    cases lookupA m k' <;> rfl
  · subst h
    simp [hm, lookupA_map_update_self m k' v hm]
  · simp [hm, lookupA_map_update_ne m k v k' h, h]

theorem lookupA_analyzeDim {κ : Type} [DecidableEq κ] (keyOf : SRPProduct → κ)
    (stats : List SRPProduct → List (String × StatValue)) (ps : List SRPProduct) :
    ∀ (keys : List κ) (acc : List (κ × List (String × StatValue))) (k : κ),
      lookupA (analyzeDim keys keyOf stats ps acc) k =
        if k ∈ keys ∧ ps.filter (fun p => keyOf p = k) ≠ [] then
          some (stats (ps.filter (fun p => keyOf p = k)))
        else lookupA acc k := by
  intro keys
  induction keys with
  | nil => intro acc k; simp [analyzeDim]
  | cons k0 keys ih =>
    intro acc k
    have hstep : analyzeDim (k0 :: keys) keyOf stats ps acc =
        analyzeDim keys keyOf stats ps
          (if (ps.filter (fun p => keyOf p = k0)).isEmpty then acc
           else insertOrUpdate acc k0 (stats (ps.filter (fun p => keyOf p = k0)))) := by
      simp only [analyzeDim, List.foldl_cons]
    rw [hstep, ih]
    by_cases hmem : k ∈ keys ∧ ps.filter (fun p => keyOf p = k) ≠ []
    · simp only [hmem, if_true]
      have : k ∈ k0 :: keys ∧ ps.filter (fun p => keyOf p = k) ≠ [] :=
        ⟨List.mem_cons_of_mem _ hmem.1, hmem.2⟩
      simp [this]
    · simp only [hmem, if_false]
      by_cases hk : k = k0
      · subst hk
        cases hemp : (ps.filter (fun p => keyOf p = k)).isEmpty
        · have hne : ps.filter (fun p => keyOf p = k) ≠ [] := by
            intro hcontr; rw [hcontr] at hemp; simp at hemp
          have : k ∈ k :: keys ∧ ps.filter (fun p => keyOf p = k) ≠ [] :=
            ⟨List.mem_cons_self _ _, hne⟩
          simp [this, lookupA_insertOrUpdate]
        · have heq : ps.filter (fun p => keyOf p = k) = [] := List.isEmpty_iff.mp hemp
          have hnot : ¬ (k ∈ k :: keys ∧ ps.filter (fun p => keyOf p = k) ≠ []) := by
            intro hcontr; exact hcontr.2 heq
          rw [if_neg hnot]
          simp [hemp]
      · have : (k ∈ k0 :: keys ∧ ps.filter (fun p => keyOf p = k) ≠ []) ↔
            (k ∈ keys ∧ ps.filter (fun p => keyOf p = k) ≠ []) := by
          constructor
          · rintro ⟨hin, hne⟩
            rcases List.mem_cons.mp hin with h1 | h1
            · exact absurd h1 hk
            · exact ⟨h1, hne⟩
          · rintro ⟨hin, hne⟩
            exact ⟨List.mem_cons_of_mem _ hin, hne⟩
        rw [if_neg (fun hcontr => hmem (this.mp hcontr))]
        cases hemp : (ps.filter (fun p => keyOf p = k0)).isEmpty
        · simp [lookupA_insertOrUpdate, hk]
        · rfl

theorem mem_addDistinct (l : List String) (x s : String) :
    s ∈ addDistinct l x ↔ s ∈ l ∨ s = x := by
  by_cases h : x ∈ l
  · simp only [addDistinct, h, if_true]
    exact ⟨Or.inl, fun hh => hh.elim id (fun e => e ▸ h)⟩
  · simp [addDistinct, h]

theorem mem_foldl_addDistinct (xs : List String) :
    ∀ (acc : List String) (s : String),
      s ∈ xs.foldl addDistinct acc ↔ s ∈ acc ∨ s ∈ xs := by
  induction xs with
  | nil => intro acc s; simp
  | cons x xs ih =>
    intro acc s
    simp only [List.foldl_cons, ih, mem_addDistinct, List.mem_cons]
    tauto

theorem mem_dedupFirst (xs : List String) (s : String) :
    s ∈ dedupFirst xs ↔ s ∈ xs := by
  simp [dedupFirst, mem_foldl_addDistinct]

theorem dedupFirst_append_singleton (xs : List String) (x : String) :
    dedupFirst (xs ++ [x]) = addDistinct (dedupFirst xs) x := by
  simp [dedupFirst, List.foldl_append]

theorem lookupA_map_inc_self (m : List (String × Nat)) (k : String)
    (hm : m.any (fun kv => kv.1 = k) = true) :
    lookupA (m.map (fun kv => if kv.1 = k then (kv.1, kv.2 + 1) else kv)) k =
      some ((lookupA m k).getD 0 + 1) := by
  induction m with
  | nil => simp at hm
  | cons a m ih =>
    by_cases h : a.1 = k
    · simp [lookupA_cons, h]
    · have hm' : m.any (fun kv => kv.1 = k) = true := by
        simpa [List.any_cons, h] using hm
      simp [lookupA_cons, h, ih hm']

theorem lookupA_map_inc_ne (m : List (String × Nat)) (k k' : String) (h : k' ≠ k) :
    lookupA (m.map (fun kv => if kv.1 = k then (kv.1, kv.2 + 1) else kv)) k' =
      lookupA m k' := by
  induction m with
  | nil => simp
  | cons a m ih =>
    by_cases ha : a.1 = k
    · have h2 : ¬ a.1 = k' := fun hh => h (hh ▸ ha)
      have h3 : ¬ k = k' := fun hh => h hh.symm
      simp [lookupA_cons, ha, h2, h3, ih]
    · simp [lookupA_cons, ha, ih]

theorem lookupA_incKey (m : List (String × Nat)) (k k' : String) :
    lookupA (incKey m k) k' =
      if k' = k then some ((lookupA m k).getD 0 + 1) else lookupA m k' := by
  unfold incKey
  cases hm : m.any (fun kv => kv.1 = k) <;> by_cases h : k' = k
  · subst h
    simp [hm, lookupA_append, lookupA_eq_none_of_not_any m k' hm, lookupA_cons]
  · have h2 : ¬ k = k' := fun hh => h hh.symm
    simp only [hm, Bool.false_eq_true, if_false, lookupA_append, lookupA_cons, lookupA_nil,
      h2, h, if_false]
    cases lookupA m k' <;> rfl
  · subst h
    simp [hm, lookupA_map_inc_self m k' hm]
  · simp [hm, lookupA_map_inc_ne m k k' h, h]

theorem lookupA_foldl_incKey (xs : List String) :
    ∀ (acc : List (String × Nat)) (s : String),
      lookupA (xs.foldl incKey acc) s =
        match lookupA acc s with
        | some n => some (n + xs.count s)
        | none => if s ∈ xs then some (xs.count s) else none := by
  induction xs with
  | nil => intro acc s; cases h : lookupA acc s <;> simp [h]
  | cons x xs ih =>
    intro acc s
    rw [List.foldl_cons, ih]
    by_cases hs : s = x
    · subst hs
      rw [lookupA_incKey, if_pos rfl]
      cases hacc : lookupA acc s with
      | some n => simp [hacc, List.count_cons]; omega
      | none => simp [hacc, List.count_cons]; omega
    · rw [lookupA_incKey, if_neg hs]
      cases hacc : lookupA acc s with
      | some n => simp [List.count_cons, hs]
      | none => simp [List.count_cons, hs, List.mem_cons]

theorem lookupA_counterOf (xs : List String) (s : String) :
    lookupA (counterOf xs) s = if s ∈ xs then some (xs.count s) else none := by
  have h := lookupA_foldl_incKey xs [] s
  rwa [lookupA_nil] at h

/-! ## Lemmas about the stable descending sort -/

theorem perm_insDescBy {α β : Type} [LinearOrder β] (key : α → β) (x : α) (l : List α) :
    List.Perm (insDescBy key x l) (x :: l) := by
  induction l with
  | nil => exact List.Perm.refl _
  | cons y ys ih =>
    by_cases h : key y ≤ key x
    · simp [insDescBy, h]
    · simp only [insDescBy, h, if_false]
      exact (ih.cons y).trans (List.Perm.swap x y ys)

theorem perm_sortDescBy {α β : Type} [LinearOrder β] (key : α → β) (l : List α) :
    List.Perm (sortDescBy key l) l := by
  induction l with
  | nil => exact List.Perm.refl _
  | cons x xs ih =>
    exact (perm_insDescBy key x (sortDescBy key xs)).trans (ih.cons x)

theorem pairwise_insDescBy {α β : Type} [LinearOrder β] (key : α → β) (Q : α → α → Prop)
    (x : α) (s : List α) (hQ : ∀ y ∈ s, Q x y)
    (hs : s.Pairwise (fun a b => key b < key a ∨ (key a = key b ∧ Q a b))) :
    (insDescBy key x s).Pairwise (fun a b => key b < key a ∨ (key a = key b ∧ Q a b)) := by
  induction s with
  | nil => simp [insDescBy]
  | cons y ys ih =>
    rcases List.pairwise_cons.mp hs with ⟨hy, hys⟩
    by_cases h : key y ≤ key x
    · simp only [insDescBy, h, if_true]
      refine List.pairwise_cons.mpr ⟨?_, hs⟩
      intro z hz
      have hQz : Q x z := hQ z hz
      have hkz : key z ≤ key y := by
        rcases List.mem_cons.mp hz with rfl | hz'
        · exact le_refl _
        · rcases hy z hz' with h1 | h1
          · exact le_of_lt h1
          · exact le_of_eq h1.1.symm
      rcases lt_or_eq_of_le (le_trans hkz h) with h2 | h2
      · exact Or.inl h2
      · exact Or.inr ⟨h2.symm, hQz⟩
    · simp only [insDescBy, h, if_false]
      refine List.pairwise_cons.mpr
        ⟨?_, ih (fun z hz => hQ z (List.mem_cons_of_mem _ hz)) hys⟩
      intro z hz
      rcases List.mem_cons.mp ((perm_insDescBy key x ys).mem_iff.mp hz) with rfl | hzys
      · exact Or.inl (lt_of_not_le h)
      · exact hy z hzys

theorem pairwise_sortDescBy {α β : Type} [LinearOrder β] (key : α → β) (Q : α → α → Prop)
    (l : List α) (h : l.Pairwise Q) :
    (sortDescBy key l).Pairwise (fun a b => key b < key a ∨ (key a = key b ∧ Q a b)) := by
  induction l with
  | nil => simp [sortDescBy]
  | cons x xs ih =>
    rcases List.pairwise_cons.mp h with ⟨hx, hxs⟩
    exact pairwise_insDescBy key Q x (sortDescBy key xs)
      (fun y hy => hx y ((perm_sortDescBy key xs).mem_iff.mp hy)) (ih hxs)

/-! ## Lemmas about first-occurrence indices -/

theorem firstIdx_cons (a : String) (xs : List String) (s : String) :
    firstIdx (a :: xs) s = if a = s then 0 else firstIdx xs s + 1 := by
  by_cases h : a = s <;> simp [firstIdx, List.findIdx_cons, h]

theorem firstIdx_append_left (xs ys : List String) (s : String) (h : s ∈ xs) :
    firstIdx (xs ++ ys) s = firstIdx xs s := by
  induction xs with
  | nil => simp at h
  | cons a xs ih =>
    by_cases ha : a = s
    · simp [firstIdx_cons, ha]
    · have h' : s ∈ xs := by
        rcases List.mem_cons.mp h with h1 | h1
        · exact absurd h1.symm ha
        · exact h1
      simp [firstIdx_cons, ha, ih h']

theorem firstIdx_append_right (xs ys : List String) (s : String) (h : s ∉ xs) :
    firstIdx (xs ++ ys) s = xs.length + firstIdx ys s := by
  induction xs with
  | nil => simp
  | cons a xs ih =>
    have ha : ¬ a = s := fun hh => h (hh ▸ List.mem_cons_self a xs)
    have h' : s ∉ xs := fun hh => h (List.mem_cons_of_mem _ hh)
    simp [firstIdx_cons, ha, ih h']
    omega

theorem firstIdx_lt_length (xs : List String) (s : String) (h : s ∈ xs) :
    firstIdx xs s < xs.length := by
  induction xs with
  | nil => simp at h
  | cons a xs ih =>
    by_cases ha : a = s
    · simp [firstIdx_cons, ha]
    · have h' : s ∈ xs := by
        rcases List.mem_cons.mp h with h1 | h1
        · exact absurd h1.symm ha
        · exact h1
      simp [firstIdx_cons, ha]
      exact ih h'

/-! ## Lemmas about the substring test -/

theorem containsSub_nil (hay : List Char) : containsSub [] hay = true := by
  cases hay <;> simp [containsSub, isPrefOf]

theorem isPrefOf_self_append (n r : List Char) : isPrefOf n (n ++ r) = true := by
  induction n with
  | nil => rfl
  | cons a n ih => simp [isPrefOf, ih]

theorem isPrefOf_append_of (n : List Char) :
    ∀ (m r : List Char), isPrefOf n m = true → isPrefOf n (m ++ r) = true := by
  induction n with
  | nil => intro m r _; rfl
  | cons a n ih =>
    intro m r h
    cases m with
    | nil => simp [isPrefOf] at h
    | cons b bs =>
      simp only [isPrefOf, Bool.and_eq_true] at h
      simp only [List.cons_append, isPrefOf, Bool.and_eq_true]
      exact ⟨h.1, ih bs r h.2⟩

theorem containsSub_append_left (n : List Char) :
    ∀ (a b : List Char), containsSub n a = true → containsSub n (a ++ b) = true := by
  intro a
  induction a with
  | nil =>
    intro b h
    cases n with
    | nil => exact containsSub_nil b
    | cons c cs => simp [containsSub, isPrefOf] at h
  | cons c a ih =>
    intro b h
    simp only [containsSub, Bool.or_eq_true] at h
    simp only [List.cons_append, containsSub, Bool.or_eq_true]
    rcases h with h | h
    · exact Or.inl (isPrefOf_append_of n (c :: a) b h)
    · exact Or.inr (ih b h)

theorem containsSub_append_right (n : List Char) :
    ∀ (a b : List Char), containsSub n b = true → containsSub n (a ++ b) = true := by
  intro a
  induction a with
  | nil => intro b h; simpa using h
  | cons c a ih =>
    intro b h
    simp only [List.cons_append, containsSub, Bool.or_eq_true]
    exact Or.inr (ih b h)

theorem containsSub_self_append (n b : List Char) : containsSub n (n ++ b) = true := by
  cases n with
  | nil => exact containsSub_nil _
  | cons c cs =>
    simp only [List.cons_append, containsSub, Bool.or_eq_true]
    exact Or.inl (isPrefOf_self_append (c :: cs) b)

theorem toList_append (a b : String) : (a ++ b).toList = a.toList ++ b.toList :=
  String.data_append a b

theorem strContainsSub_append_of_left (a b n : String) (h : strContainsSub a n = true) :
    strContainsSub (a ++ b) n = true := by
  simp only [strContainsSub, toList_append]
  exact containsSub_append_left _ _ _ h

theorem strContainsSub_append_of_right (a b n : String) (h : strContainsSub b n = true) :
    strContainsSub (a ++ b) n = true := by
  simp only [strContainsSub, toList_append]
  exact containsSub_append_right _ _ _ h

theorem strContainsSub_self_append (n b : String) : strContainsSub (n ++ b) n = true := by
  simp only [strContainsSub, toList_append]
  exact containsSub_self_append _ _

theorem strContainsSub_self (n : String) : strContainsSub n n = true := by
  have h := containsSub_self_append n.toList []
  simpa [strContainsSub] using h

/-! ## Lemmas about the filter steps -/

theorem lookupF_cons_ne (k : String) (v : FVal) (fs : List (String × FVal)) (k' : String)
    (h : k' ≠ k) : lookupF ((k, v) :: fs) k' = lookupF fs k' := by
  have h2 : ¬ k = k' := fun hh => h hh.symm
  simp [lookupF, lookupA_cons, h2]

theorem applyOptEq_eq_filter (fs : List (String × FVal)) (key : String)
    (valOf : SRPProduct → String) (ps : List SRPProduct) :
    applyOptEq fs key valOf ps = ps.filter (eqPred fs key valOf) := by
  unfold applyOptEq eqPred eqFilter
  cases lookupF fs key with
  | none => simp
  | some v => cases v with
    | str s => rfl
    | num q => rfl

/-! ## Lemmas about the issuer grouping loop -/

theorem sumNominal_append (xs ys : List SRPProduct) :
    sumNominal (xs ++ ys) = sumNominal xs + sumNominal ys := by
  simp [sumNominal]

theorem map_fst_map_keep {β : Type} (m : List (String × β)) (g : String × β → String × β)
    (hg : ∀ kv, (g kv).1 = kv.1) :
    (m.map g).map Prod.fst = m.map Prod.fst := by
  induction m with
  | nil => rfl
  | cons a m ih => simp [hg a, ih]

theorem mem_keys_of_any {β : Type} (m : List (String × β)) (s : String)
    (hm : m.any (fun kv => kv.1 = s) = true) : s ∈ m.map Prod.fst := by
  rcases List.any_eq_true.mp hm with ⟨kv, hkv, he⟩
  have : kv.1 = s := of_decide_eq_true he
  exact this ▸ List.mem_map_of_mem Prod.fst hkv

theorem not_mem_keys_of_not_any {β : Type} (m : List (String × β)) (s : String)
    (hm : m.any (fun kv => kv.1 = s) = false) : s ∉ m.map Prod.fst := by
  intro hmem
  rcases List.mem_map.mp hmem with ⟨kv, hkv, he⟩
  have : m.any (fun kv => kv.1 = s) = true :=
    List.any_eq_true.mpr ⟨kv, hkv, decide_eq_true he⟩
  rw [hm] at this
  exact Bool.false_ne_true this

theorem issuerStep_foldl_inv (full : List SRPProduct) :
    ∀ (rest done : List SRPProduct) (m : List (String × IssuerAcc)),
      done ++ rest = full →
      (∀ s, s ∈ m.map Prod.fst ↔ s ∈ done.map (fun p => p.issuer)) →
      (m.map Prod.fst).Pairwise (fun a b =>
        firstIdx (full.map (fun p => p.issuer)) a <
          firstIdx (full.map (fun p => p.issuer)) b) →
      (∀ kv ∈ m,
        kv.2.count = (done.filter (fun p => p.issuer = kv.1)).length ∧
        kv.2.total_value = sumNominal (done.filter (fun p => p.issuer = kv.1)) ∧
        kv.2.countries =
          dedupFirst ((done.filter (fun p => p.issuer = kv.1)).map (fun p => p.country.value)) ∧
        kv.2.currencies =
          dedupFirst ((done.filter (fun p => p.issuer = kv.1)).map (fun p => p.currency.value)) ∧
        kv.2.product_types =
          dedupFirst
            ((done.filter (fun p => p.issuer = kv.1)).map (fun p => p.product_type.value))) →
      (∀ s, s ∈ (rest.foldl issuerStep m).map Prod.fst ↔
          s ∈ full.map (fun p => p.issuer)) ∧
      ((rest.foldl issuerStep m).map Prod.fst).Pairwise (fun a b =>
        firstIdx (full.map (fun p => p.issuer)) a <
          firstIdx (full.map (fun p => p.issuer)) b) ∧
      (∀ kv ∈ rest.foldl issuerStep m,
        kv.2.count = (full.filter (fun p => p.issuer = kv.1)).length ∧
        kv.2.total_value = sumNominal (full.filter (fun p => p.issuer = kv.1)) ∧
        kv.2.countries =
          dedupFirst ((full.filter (fun p => p.issuer = kv.1)).map (fun p => p.country.value)) ∧
        kv.2.currencies =
          dedupFirst ((full.filter (fun p => p.issuer = kv.1)).map (fun p => p.currency.value)) ∧
        kv.2.product_types =
          dedupFirst
            ((full.filter (fun p => p.issuer = kv.1)).map (fun p => p.product_type.value))) := by
  intro rest
  induction rest with
  | nil =>
    intro done m happ h1 h2 h3
    have hdone : done = full := by simpa using happ
    subst hdone
    exact ⟨h1, h2, h3⟩
  | cons p rest ih =>
    intro done m happ h1 h2 h3
    have happ' : (done ++ [p]) ++ rest = full := by
      rw [List.append_assoc]; simpa using happ
    rw [List.foldl_cons]
    apply ih (done ++ [p]) (issuerStep m p) happ'
    · -- keys of the stepped accumulator
      intro s
      by_cases hm : m.any (fun kv => kv.1 = p.issuer)
      · have hkeys : (issuerStep m p).map Prod.fst = m.map Prod.fst := by
          simp only [issuerStep, hm, if_true]
          exact map_fst_map_keep m _ (fun kv => by by_cases h : kv.1 = p.issuer <;> simp [h])
        rw [hkeys]
        have hpin : p.issuer ∈ m.map Prod.fst := mem_keys_of_any m p.issuer hm
        simp only [List.map_append, List.map_cons, List.map_nil, List.mem_append,
          List.mem_singleton]
        constructor
        · intro hs; exact Or.inl ((h1 s).mp hs)
        · rintro (hs | rfl)
          · exact (h1 s).mpr hs
          · exact hpin
      · have hmf : m.any (fun kv => kv.1 = p.issuer) = false := Bool.eq_false_iff.mpr hm
        have hkeys : (issuerStep m p).map Prod.fst = m.map Prod.fst ++ [p.issuer] := by
          simp [issuerStep, hmf]
        rw [hkeys]
        simp only [List.map_append, List.map_cons, List.map_nil, List.mem_append,
          List.mem_singleton]
        constructor
        · rintro (hs | rfl)
          · exact Or.inl ((h1 s).mp hs)
          · exact Or.inr rfl
        · rintro (hs | rfl)
          · exact Or.inl ((h1 s).mpr hs)
          · exact Or.inr rfl
    · -- pairwise first-occurrence order of the keys
      by_cases hm : m.any (fun kv => kv.1 = p.issuer)
      · have hkeys : (issuerStep m p).map Prod.fst = m.map Prod.fst := by
          simp only [issuerStep, hm, if_true]
          exact map_fst_map_keep m _ (fun kv => by by_cases h : kv.1 = p.issuer <;> simp [h])
        rw [hkeys]; exact h2
      · have hmf : m.any (fun kv => kv.1 = p.issuer) = false := Bool.eq_false_iff.mpr hm
        have hkeys : (issuerStep m p).map Prod.fst = m.map Prod.fst ++ [p.issuer] := by
          simp [issuerStep, hmf]
        rw [hkeys]
        rw [List.pairwise_append]
        refine ⟨h2, List.pairwise_singleton _ _, ?_⟩
        intro a ha b hb
        have hb' : b = p.issuer := List.mem_singleton.mp hb
        subst hb'
        have hadone : a ∈ done.map (fun p => p.issuer) := (h1 a).mp ha
        have hpnot : p.issuer ∉ done.map (fun p => p.issuer) := by
          intro hcontr
          exact (not_mem_keys_of_not_any m p.issuer hmf) ((h1 p.issuer).mpr hcontr)
        have hfull : full.map (fun p => p.issuer) =
            done.map (fun p => p.issuer) ++ (p.issuer :: rest.map (fun p => p.issuer)) := by
          rw [← happ]; simp
        rw [hfull, firstIdx_append_left _ _ _ hadone, firstIdx_append_right _ _ _ hpnot,
          firstIdx_cons, if_pos rfl]
        have := firstIdx_lt_length _ _ hadone
        omega
    · -- per-issuer statistics
      intro kv hkv
      by_cases hm : m.any (fun kv => kv.1 = p.issuer)
      · simp only [issuerStep, hm, if_true] at hkv
        rcases List.mem_map.mp hkv with ⟨kv0, hkv0, hupd⟩
        by_cases hk : kv0.1 = p.issuer
        · rw [← hupd]
          simp only [hk, if_true]
          have hfl : (done ++ [p]).filter (fun q => q.issuer = kv0.1) =
              done.filter (fun q => q.issuer = kv0.1) ++ [p] := by
            rw [List.filter_append]
            simp [hk]
          rcases h3 kv0 hkv0 with ⟨hc, ht, hco, hcu, hpt⟩
          rw [hk] at hfl hc ht hco hcu hpt
          refine ⟨?_, ?_, ?_, ?_, ?_⟩
          · simp [hfl, hc]
          · simp [hfl, sumNominal_append, ht, sumNominal]
          · simp [hfl, hco, List.map_append, dedupFirst_append_singleton]
          · simp [hfl, hcu, List.map_append, dedupFirst_append_singleton]
          · simp [hfl, hpt, List.map_append, dedupFirst_append_singleton]
        · rw [← hupd]
          simp only [hk, if_false]
          have hk2 : ¬ p.issuer = kv0.1 := fun hh => hk hh.symm
          have hfl : (done ++ [p]).filter (fun q => q.issuer = kv0.1) =
              done.filter (fun q => q.issuer = kv0.1) := by
            rw [List.filter_append]
            simp [hk2]
          rw [hfl]
          exact h3 kv0 hkv0
      · have hmf : m.any (fun kv => kv.1 = p.issuer) = false := Bool.eq_false_iff.mpr hm
        simp only [issuerStep, hmf, Bool.false_eq_true, if_false, List.mem_append,
          List.mem_singleton] at hkv
        rcases hkv with hkv | rfl
        · have hk : kv.1 ≠ p.issuer := by
            intro hcontr
            exact (not_mem_keys_of_not_any m p.issuer hmf)
              (hcontr ▸ List.mem_map_of_mem Prod.fst hkv)
          have hk2 : ¬ p.issuer = kv.1 := fun hh => hk hh.symm
          have hfl : (done ++ [p]).filter (fun q => q.issuer = kv.1) =
              done.filter (fun q => q.issuer = kv.1) := by
            rw [List.filter_append]
            simp [hk2]
          rw [hfl]
          exact h3 kv hkv
        · have hpnotdone : p.issuer ∉ done.map (fun q => q.issuer) := by
            intro hcontr
            exact (not_mem_keys_of_not_any m p.issuer hmf) ((h1 p.issuer).mpr hcontr)
          have hdnil : done.filter (fun q => q.issuer = p.issuer) = [] := by
            rw [List.filter_eq_nil_iff]
            intro q hq hcontr
            exact hpnotdone ((of_decide_eq_true hcontr) ▸ List.mem_map_of_mem _ hq)
          have hfl : (done ++ [p]).filter (fun q => q.issuer = p.issuer) = [p] := by
            rw [List.filter_append, hdnil]
            simp
          refine ⟨?_, ?_, ?_, ?_, ?_⟩ <;>
            simp [hfl, sumNominal, dedupFirst, addDistinct]

theorem issuerStats_spec (ps : List SRPProduct) :
    (∀ s, s ∈ (issuerStats ps).map Prod.fst ↔ s ∈ ps.map (fun p => p.issuer)) ∧
    ((issuerStats ps).map Prod.fst).Pairwise (fun a b =>
      firstIdx (ps.map (fun p => p.issuer)) a < firstIdx (ps.map (fun p => p.issuer)) b) ∧
    (∀ kv ∈ issuerStats ps,
      kv.2.count = (ps.filter (fun p => p.issuer = kv.1)).length ∧
      kv.2.total_value = sumNominal (ps.filter (fun p => p.issuer = kv.1)) ∧
      kv.2.countries =
        dedupFirst ((ps.filter (fun p => p.issuer = kv.1)).map (fun p => p.country.value)) ∧
      kv.2.currencies =
        dedupFirst ((ps.filter (fun p => p.issuer = kv.1)).map (fun p => p.currency.value)) ∧
      kv.2.product_types =
        dedupFirst
          ((ps.filter (fun p => p.issuer = kv.1)).map (fun p => p.product_type.value))) := by
  have h := issuerStep_foldl_inv ps ps [] [] (by simp) (by simp) (by simp) (by simp)
  simpa [issuerStats] using h

theorem analyzeTopIssuers_length (ps : List SRPProduct) :
    (analyzeTopIssuers ps).length ≤ 10 := by
  unfold analyzeTopIssuers
  rw [List.length_take]
  exact min_le_left _ _

theorem analyzeTopIssuers_pairwise (ps : List SRPProduct) :
    (analyzeTopIssuers ps).Pairwise (fun a b =>
      b.total_value < a.total_value ∨
        (a.total_value = b.total_value ∧
          firstIdx (ps.map (fun p => p.issuer)) a.issuer <
            firstIdx (ps.map (fun p => p.issuer)) b.issuer)) := by
  have hkeys := (issuerStats_spec ps).2.1
  have hentries : ((issuerStats ps).map issuerEntryOf).Pairwise (fun a b =>
      firstIdx (ps.map (fun p => p.issuer)) a.issuer <
        firstIdx (ps.map (fun p => p.issuer)) b.issuer) := by
    rw [List.pairwise_map]
    rw [List.pairwise_map] at hkeys
    exact hkeys
  have hsorted := pairwise_sortDescBy (fun e : IssuerEntry => e.total_value)
    (fun a b =>
      firstIdx (ps.map (fun p => p.issuer)) a.issuer <
        firstIdx (ps.map (fun p => p.issuer)) b.issuer)
    ((issuerStats ps).map issuerEntryOf) hentries
  exact List.Pairwise.sublist (List.take_sublist 10 _) hsorted

theorem analyzeTopIssuers_entries (ps : List SRPProduct) :
    ∀ e ∈ analyzeTopIssuers ps,
      e.issuer ∈ ps.map (fun p => p.issuer) ∧
      e.count = (ps.filter (fun p => p.issuer = e.issuer)).length ∧
      e.total_value = sumNominal (ps.filter (fun p => p.issuer = e.issuer)) ∧
      e.average_value = e.total_value / (e.count : ℚ) ∧
      (∀ s, s ∈ e.countries ↔
        s ∈ (ps.filter (fun p => p.issuer = e.issuer)).map (fun p => p.country.value)) ∧
      (∀ s, s ∈ e.currencies ↔
        s ∈ (ps.filter (fun p => p.issuer = e.issuer)).map (fun p => p.currency.value)) ∧
      (∀ s, s ∈ e.product_types ↔
        s ∈ (ps.filter (fun p => p.issuer = e.issuer)).map (fun p => p.product_type.value)) := by
  intro e he
  have hsort : e ∈ sortDescBy (fun e : IssuerEntry => e.total_value)
      ((issuerStats ps).map issuerEntryOf) := List.mem_of_mem_take he
  have hmem : e ∈ (issuerStats ps).map issuerEntryOf :=
    (perm_sortDescBy (fun e : IssuerEntry => e.total_value) _).mem_iff.mp hsort
  rcases List.mem_map.mp hmem with ⟨kv, hkv, hkve⟩
  rcases (issuerStats_spec ps).2.2 kv hkv with ⟨hc, ht, hco, hcu, hpt⟩
  have hiss : e.issuer = kv.1 := by rw [← hkve]; rfl
  refine ⟨?_, ?_, ?_, ?_, ?_, ?_, ?_⟩
  · rw [hiss]
    exact ((issuerStats_spec ps).1 kv.1).mp (List.mem_map_of_mem Prod.fst hkv)
  · rw [hiss, ← hkve]
    exact hc
  · rw [hiss, ← hkve]
    exact ht
  · rw [← hkve]
    simp [issuerEntryOf]
  · intro s
    rw [hiss, ← hkve]
    simp only [issuerEntryOf, hco]
    exact mem_dedupFirst _ s
  · intro s
    rw [hiss, ← hkve]
    simp only [issuerEntryOf, hcu]
    exact mem_dedupFirst _ s
  · intro s
    rw [hiss, ← hkve]
    simp only [issuerEntryOf, hpt]
    exact mem_dedupFirst _ s

theorem headI_mem {α : Type} [Inhabited α] (l : List α) (h : l ≠ []) : l.headI ∈ l := by
  cases l with
  | nil => exact absurd rfl h
  | cons a t => exact List.mem_cons_self a t

theorem date_lt_iff (a b : Date) :
    Date.lt a b = true ↔
      (a.year < b.year ∨
        (a.year = b.year ∧ (a.month < b.month ∨ (a.month = b.month ∧ a.day < b.day)))) := by
  simp [Date.lt]

theorem date_lt_of_le_eq_false (a b : Date) (h : Date.le a b = false) :
    Date.lt b a = true := by
  rcases a with ⟨y1, m1, d1⟩
  rcases b with ⟨y2, m2, d2⟩
  unfold Date.le at h
  rcases Bool.or_eq_false_iff.mp h with ⟨hlt, heqb⟩
  have hltP : ¬ (y1 < y2 ∨ (y1 = y2 ∧ (m1 < m2 ∨ (m1 = m2 ∧ d1 < d2)))) := by
    intro hcontr
    have hx : Date.lt ⟨y1, m1, d1⟩ ⟨y2, m2, d2⟩ = true :=
      (date_lt_iff ⟨y1, m1, d1⟩ ⟨y2, m2, d2⟩).mpr hcontr
    rw [hx] at hlt
    exact absurd hlt (by simp)
  have hneP : ¬ (y1 = y2 ∧ m1 = m2 ∧ d1 = d2) := by
    rintro ⟨hy, hm, hd⟩
    subst hy; subst hm; subst hd
    simp at heqb
  push_neg at hltP hneP
  obtain ⟨hy, himp⟩ := hltP
  rw [date_lt_iff]
  show y2 < y1 ∨ (y2 = y1 ∧ (m2 < m1 ∨ (m2 = m1 ∧ d2 < d1)))
  by_cases hyy : y1 = y2
  · obtain ⟨hm, himp2⟩ := himp hyy
    by_cases hmm : m1 = m2
    · have hd := himp2 hmm
      have hdne := hneP hyy hmm
      exact Or.inr ⟨hyy.symm, Or.inr ⟨hmm.symm, by omega⟩⟩
    · exact Or.inr ⟨hyy.symm, Or.inl (by omega)⟩
  · exact Or.inl (by omega)

theorem lookupA_dim_of_analyze {κ : Type} [DecidableEq κ] (keys : List κ)
    (keyOf : SRPProduct → κ) (stats : List SRPProduct → List (String × StatValue))
    (ps : List SRPProduct) (k : κ) (hk : k ∈ keys) :
    lookupA (analyzeDim keys keyOf stats ps []) k =
      if ps.filter (fun p => keyOf p = k) ≠ [] then
        some (stats (ps.filter (fun p => keyOf p = k)))
      else none := by
  rw [lookupA_analyzeDim]
  by_cases hne : ps.filter (fun p => keyOf p = k) ≠ []
  · rw [if_pos ⟨hk, hne⟩, if_pos hne]
  · rw [if_neg (fun hh => hne hh.2), if_neg hne]; rfl

theorem countryStats_facts (q : List SRPProduct) :
    bundleHasBasics (countryStats q) q ∧
    bundleHasDistinct (countryStats q) "currencies" (q.map (fun p => p.currency.value)) ∧
    bundleHasDistinct (countryStats q) "product_types"
      (q.map (fun p => p.product_type.value)) ∧
    bundleHasRiskDist (countryStats q) (q.map (fun p => p.risk_level.value)) :=
  ⟨⟨rfl, rfl, rfl⟩, ⟨_, rfl, fun s => mem_dedupFirst _ s⟩,
    ⟨_, rfl, fun s => mem_dedupFirst _ s⟩, ⟨_, rfl, fun s => lookupA_counterOf _ s⟩⟩

theorem currencyStats_facts (q : List SRPProduct) :
    bundleHasBasics (currencyStats q) q ∧
    bundleHasDistinct (currencyStats q) "countries" (q.map (fun p => p.country.value)) ∧
    bundleHasDistinct (currencyStats q) "product_types"
      (q.map (fun p => p.product_type.value)) ∧
    bundleHasRiskDist (currencyStats q) (q.map (fun p => p.risk_level.value)) :=
  ⟨⟨rfl, rfl, rfl⟩, ⟨_, rfl, fun s => mem_dedupFirst _ s⟩,
    ⟨_, rfl, fun s => mem_dedupFirst _ s⟩, ⟨_, rfl, fun s => lookupA_counterOf _ s⟩⟩

theorem riskStats_facts (q : List SRPProduct) :
    bundleHasBasics (riskStats q) q ∧
    bundleHasDistinct (riskStats q) "countries" (q.map (fun p => p.country.value)) ∧
    bundleHasDistinct (riskStats q) "currencies" (q.map (fun p => p.currency.value)) ∧
    bundleHasDistinct (riskStats q) "product_types"
      (q.map (fun p => p.product_type.value)) ∧
    lookupA (riskStats q) "risk_distribution" = none :=
  ⟨⟨rfl, rfl, rfl⟩, ⟨_, rfl, fun s => mem_dedupFirst _ s⟩,
    ⟨_, rfl, fun s => mem_dedupFirst _ s⟩, ⟨_, rfl, fun s => mem_dedupFirst _ s⟩, rfl⟩

theorem typeStats_facts (q : List SRPProduct) :
    bundleHasBasics (typeStats q) q ∧
    bundleHasDistinct (typeStats q) "countries" (q.map (fun p => p.country.value)) ∧
    bundleHasDistinct (typeStats q) "currencies" (q.map (fun p => p.currency.value)) ∧
    bundleHasRiskDist (typeStats q) (q.map (fun p => p.risk_level.value)) :=
  ⟨⟨rfl, rfl, rfl⟩, ⟨_, rfl, fun s => mem_dedupFirst _ s⟩,
    ⟨_, rfl, fun s => mem_dedupFirst _ s⟩, ⟨_, rfl, fun s => lookupA_counterOf _ s⟩⟩

/-! ## Claim theorems -/

/-- C1: for every set of raw field values, `SRPProduct` construction either
fails with a validation error or returns a record with a strictly positive
nominal value, a coupon rate in `[0, 100]` when present, and a maturity date
strictly later than the issue date when present. -/
theorem mkSRPProduct_invariants
    (product_id product_name issuer : String) (country : Country) (currency : Currency)
    (issue_date : Date) (maturity_date : Option Date) (nominal_value : ℚ)
    (coupon_rate : Option ℚ) (product_type : ProductType)
    (underlying_asset : Option String) (risk_level : RiskLevel)
    (rating isin cusip : Option String) (min_investment max_investment : Option ℚ)
    (liquidity : Option String) (fees : Option ℚ) (r : SRPProduct)
    (h : mkSRPProduct product_id product_name issuer country currency issue_date
      maturity_date nominal_value coupon_rate product_type underlying_asset risk_level
      rating isin cusip min_investment max_investment liquidity fees = Except.ok r) :
    0 < r.nominal_value ∧
    (∀ q, r.coupon_rate = some q → 0 ≤ q ∧ q ≤ 100) ∧
    (∀ m, r.maturity_date = some m → Date.lt r.issue_date m = true) := by
  unfold mkSRPProduct at h
  cases hv : validationErrors issue_date maturity_date nominal_value coupon_rate with
  | cons e es => rw [hv] at h; exact absurd h (by simp)
  | nil =>
    rw [hv] at h
    simp only [Except.ok.injEq] at h
    subst h
    unfold validationErrors at hv
    rcases List.append_eq_nil.mp hv with ⟨hAB, hC⟩
    rcases List.append_eq_nil.mp hAB with ⟨hA, hB⟩
    refine ⟨?_, ?_, ?_⟩
    · by_cases hn : nominal_value ≤ 0
      · rw [if_pos hn] at hB; exact absurd hB (by simp)
      · exact lt_of_not_le hn
    · intro q hq
      change coupon_rate = some q at hq
      rw [hq] at hC
      have hC' : (if q < 0 ∨ q > 100 then ["coupon_rate must be between 0 and 100"]
          else []) = [] := hC
      by_cases hc : q < 0 ∨ q > 100
      · rw [if_pos hc] at hC'; exact absurd hC' (by simp)
      · push_neg at hc
        exact ⟨le_of_not_lt (fun hh => absurd hh (by exact fun hh2 => hc.1.not_lt hh2)), hc.2⟩
    · intro m hm
      change maturity_date = some m at hm
      rw [hm] at hA
      have hA' : (if Date.le m issue_date = true
          then ["maturity_date must be later than issue_date"] else []) = [] := hA
      by_cases hd : Date.le m issue_date = true
      · rw [if_pos hd] at hA'; exact absurd hA' (by simp)
      · exact date_lt_of_le_eq_false m issue_date (Bool.eq_false_iff.mpr hd)

/-- Witness for C1 at a concrete valid input. -/
theorem mkSRPProduct_invariants_witness :
    (mkSRPProduct "TEST_003" "Test Product 3" "Test Bank A" .FRANCE .EUR ⟨2024, 8, 15⟩
        (some ⟨2025, 8, 15⟩) 10000 (some 5) .BOND none .MEDIUM none none none none none
        none none = Except.ok sampleValid) ∧
    (0 < sampleValid.nominal_value ∧
      (∀ q, sampleValid.coupon_rate = some q → 0 ≤ q ∧ q ≤ 100) ∧
      (∀ m, sampleValid.maturity_date = some m → Date.lt sampleValid.issue_date m = true)) :=
  ⟨by rfl,
    mkSRPProduct_invariants "TEST_003" "Test Product 3" "Test Bank A" .FRANCE .EUR
      ⟨2024, 8, 15⟩ (some ⟨2025, 8, 15⟩) 10000 (some 5) .BOND none .MEDIUM none none none
      none none none none sampleValid (by rfl)⟩

/-- C2 counterexample: a record whose id, name and issuer are all empty is
accepted by `SRPProduct` construction and can be appended to a collection,
so construction does not fail on empty string fields. -/
theorem empty_strings_enter_collection :
    mkSRPProduct "" "" "" .FRANCE .EUR ⟨2024, 8, 15⟩ none 1000 none .BOND none .MEDIUM
        none none none none none none none = Except.ok emptyStringsProduct ∧
    (SRPProductList.add_product {} emptyStringsProduct).products = [emptyStringsProduct] ∧
    emptyStringsProduct.product_id = "" ∧
    emptyStringsProduct.product_name = "" ∧
    emptyStringsProduct.issuer = "" := by
  refine ⟨by rfl, rfl, rfl, rfl, rfl⟩

/-- C2 amended: `SRPProduct` construction never inspects `product_id`,
`product_name` or `issuer`; success is unchanged under replacing them — in
particular by empty strings — so empty-string records construct whenever the
remaining constraints hold. -/
theorem construction_ignores_string_fields
    (pid₁ pname₁ iss₁ pid₂ pname₂ iss₂ : String) (country : Country) (currency : Currency)
    (issue_date : Date) (maturity_date : Option Date) (nominal_value : ℚ)
    (coupon_rate : Option ℚ) (product_type : ProductType)
    (underlying_asset : Option String) (risk_level : RiskLevel)
    (rating isin cusip : Option String) (min_investment max_investment : Option ℚ)
    (liquidity : Option String) (fees : Option ℚ) :
    (mkSRPProduct pid₁ pname₁ iss₁ country currency issue_date maturity_date nominal_value
      coupon_rate product_type underlying_asset risk_level rating isin cusip min_investment
      max_investment liquidity fees).isOk =
    (mkSRPProduct pid₂ pname₂ iss₂ country currency issue_date maturity_date nominal_value
      coupon_rate product_type underlying_asset risk_level rating isin cusip min_investment
      max_investment liquidity fees).isOk := by
  unfold mkSRPProduct
  cases validationErrors issue_date maturity_date nominal_value coupon_rate <;> rfl

/-- C3: for every collection analysed by a fresh analyzer, `total_products`
is the number of records, `total_value` the sum of nominal values, and
`average_nominal_value` their quotient for a non-empty collection and `0`
for an empty one. -/
theorem analyze_products_basic_stats (l : SRPProductList) :
    (analyzeProducts initialAnalysis l).total_products = l.products.length ∧
    (analyzeProducts initialAnalysis l).total_value = sumNominal l.products ∧
    (analyzeProducts initialAnalysis l).average_nominal_value =
      (if l.products.length = 0 then 0
       else sumNominal l.products / (l.products.length : ℚ)) := by
  cases hps : l.products with
  | nil => simp [analyzeProducts, hps, initialAnalysis, sumNominal]
  | cons p ps => simp [analyzeProducts, hps]

/-- C7: analysing a collection with zero records on a fresh analyzer returns
the all-zero aggregation result (zero scalars, empty breakdown maps) rather
than failing. -/
theorem analyze_empty_collection (l : SRPProductList) (h : l.products = []) :
    analyzeProducts initialAnalysis l = initialAnalysis ∧
    (analyzeProducts initialAnalysis l).total_products = 0 ∧
    (analyzeProducts initialAnalysis l).total_value = 0 ∧
    (analyzeProducts initialAnalysis l).average_nominal_value = 0 ∧
    (analyzeProducts initialAnalysis l).by_country = [] ∧
    (analyzeProducts initialAnalysis l).by_currency = [] ∧
    (analyzeProducts initialAnalysis l).by_risk_level = [] ∧
    (analyzeProducts initialAnalysis l).by_product_type = [] ∧
    (analyzeProducts initialAnalysis l).top_issuers = [] ∧
    (analyzeProducts initialAnalysis l).monthly_evolution = [] := by
  have heq : analyzeProducts initialAnalysis l = initialAnalysis := by
    simp [analyzeProducts, h]
  rw [heq]
  exact ⟨rfl, rfl, rfl, rfl, rfl, rfl, rfl, rfl, rfl, rfl⟩

/-- Witness for C7 at the concrete empty collection. -/
theorem analyze_empty_collection_witness :
    emptyColl.products = [] ∧
    (analyzeProducts initialAnalysis emptyColl = initialAnalysis ∧
      (analyzeProducts initialAnalysis emptyColl).total_products = 0 ∧
      (analyzeProducts initialAnalysis emptyColl).total_value = 0 ∧
      (analyzeProducts initialAnalysis emptyColl).average_nominal_value = 0 ∧
      (analyzeProducts initialAnalysis emptyColl).by_country = [] ∧
      (analyzeProducts initialAnalysis emptyColl).by_currency = [] ∧
      (analyzeProducts initialAnalysis emptyColl).by_risk_level = [] ∧
      (analyzeProducts initialAnalysis emptyColl).by_product_type = [] ∧
      (analyzeProducts initialAnalysis emptyColl).top_issuers = [] ∧
      (analyzeProducts initialAnalysis emptyColl).monthly_evolution = []) :=
  ⟨rfl, analyze_empty_collection emptyColl rfl⟩

/-- C10: `add_product` never fails and enforces no id uniqueness: it always
appends (also a record whose id already occurs, as the repeated append of the
same record shows) and keeps `total_count` equal to the number of stored
records. -/
theorem add_product_appends (l : SRPProductList) (p : SRPProduct) :
    (l.add_product p).products = l.products ++ [p] ∧
    (l.add_product p).total_count = l.products.length + 1 ∧
    (l.add_product p).total_count = (l.add_product p).products.length ∧
    ((l.add_product p).add_product p).products = l.products ++ [p, p] := by
  refine ⟨rfl, ?_, ?_, ?_⟩
  · simp [SRPProductList.add_product]
  · simp [SRPProductList.add_product]
  · simp [SRPProductList.add_product]

/-- C4: the global issuer ranking groups the collection by exact issuer
string and is sorted descending by total nominal value with ties broken by
first-encountered issuer, truncated to at most 10 entries, each carrying the
issuer's count, total value, mean value and distinct countries, currencies
and product types. -/
theorem top_issuers_ranking (l : SRPProductList) :
    (analyzeProducts initialAnalysis l).top_issuers.length ≤ 10 ∧
    (analyzeProducts initialAnalysis l).top_issuers.Pairwise (fun a b =>
      b.total_value < a.total_value ∨
        (a.total_value = b.total_value ∧
          firstIdx (l.products.map (fun p => p.issuer)) a.issuer <
            firstIdx (l.products.map (fun p => p.issuer)) b.issuer)) ∧
    (∀ e ∈ (analyzeProducts initialAnalysis l).top_issuers,
      e.issuer ∈ l.products.map (fun p => p.issuer) ∧
      e.count = (l.products.filter (fun p => p.issuer = e.issuer)).length ∧
      e.total_value = sumNominal (l.products.filter (fun p => p.issuer = e.issuer)) ∧
      e.average_value = e.total_value / (e.count : ℚ) ∧
      (∀ s, s ∈ e.countries ↔
        s ∈ (l.products.filter (fun p => p.issuer = e.issuer)).map
          (fun p => p.country.value)) ∧
      (∀ s, s ∈ e.currencies ↔
        s ∈ (l.products.filter (fun p => p.issuer = e.issuer)).map
          (fun p => p.currency.value)) ∧
      (∀ s, s ∈ e.product_types ↔
        s ∈ (l.products.filter (fun p => p.issuer = e.issuer)).map
          (fun p => p.product_type.value))) := by
  cases hps : l.products.isEmpty
  · have htop : (analyzeProducts initialAnalysis l).top_issuers =
        analyzeTopIssuers l.products := by
      simp [analyzeProducts, hps]
    rw [htop]
    exact ⟨analyzeTopIssuers_length _, analyzeTopIssuers_pairwise _,
      analyzeTopIssuers_entries _⟩
  · have htop : analyzeProducts initialAnalysis l = initialAnalysis := by
      simp [analyzeProducts, hps]
    rw [htop]
    refine ⟨by simp [initialAnalysis], by simp [initialAnalysis], ?_⟩
    intro e he
    simp [initialAnalysis] at he

theorem getFilteredProducts_lookup_congr (fs fs' : List (String × FVal))
    (ps : List SRPProduct)
    (h : ∀ k ∈ knownFilterKeys, lookupF fs' k = lookupF fs k) :
    getFilteredProducts fs' ps = getFilteredProducts fs ps := by
  unfold getFilteredProducts applyOptEq
  rw [h "country" (by simp [knownFilterKeys]), h "currency" (by simp [knownFilterKeys]),
    h "product_type" (by simp [knownFilterKeys]),
    h "risk_level" (by simp [knownFilterKeys]),
    h "min_nominal_value" (by simp [knownFilterKeys]),
    h "max_nominal_value" (by simp [knownFilterKeys]),
    h "issuer" (by simp [knownFilterKeys])]

/-- C6: `get_filtered_products` returns exactly the subsequence of records
satisfying the conjunction of all supplied predicates, in original order,
with absent keys imposing no constraint and unrecognized keys ignored. -/
theorem get_filtered_products_conjunction (fs : List (String × FVal))
    (ps : List SRPProduct)
    (hmin : ∀ v, lookupF fs "min_nominal_value" = some v → ∃ q, v = FVal.num q)
    (hmax : ∀ v, lookupF fs "max_nominal_value" = some v → ∃ q, v = FVal.num q)
    (hiss : ∀ v, lookupF fs "issuer" = some v → ∃ s, v = FVal.str s) :
    getFilteredProducts fs ps = Except.ok (ps.filter (matchesAllFilters fs)) ∧
    (ps.filter (matchesAllFilters fs)).Sublist ps ∧
    (∀ (k : String) (v : FVal), k ∉ knownFilterKeys →
      getFilteredProducts ((k, v) :: fs) ps = getFilteredProducts fs ps) := by
  refine ⟨?_, List.filter_sublist _, ?_⟩
  · simp only [getFilteredProducts, applyOptEq_eq_filter]
    cases hminl : lookupF fs "min_nominal_value" with
    | some v =>
      obtain ⟨q, rfl⟩ := hmin v hminl
      cases hmaxl : lookupF fs "max_nominal_value" with
      | some v' =>
        obtain ⟨q', rfl⟩ := hmax v' hmaxl
        cases hissl : lookupF fs "issuer" with
        | some v'' =>
          obtain ⟨s, rfl⟩ := hiss v'' hissl
          simp only [cmpFilter, issuerFilter, Except.bind, bind]
          refine congrArg Except.ok ?_
          simp only [List.filter_filter]
          refine List.filter_congr ?_
          intro x hx
          simp [matchesAllFilters, eqPred, minPred, maxPred, issuerPred, hminl, hmaxl,
            hissl, Bool.and_assoc, Bool.and_comm, Bool.and_left_comm]
        | none =>
          simp only [cmpFilter, issuerFilter, Except.bind, bind]
          refine congrArg Except.ok ?_
          simp only [List.filter_filter]
          refine List.filter_congr ?_
          intro x hx
          simp [matchesAllFilters, eqPred, minPred, maxPred, issuerPred, hminl, hmaxl,
            hissl, Bool.and_assoc, Bool.and_comm, Bool.and_left_comm]
      | none =>
        cases hissl : lookupF fs "issuer" with
        | some v'' =>
          obtain ⟨s, rfl⟩ := hiss v'' hissl
          simp only [cmpFilter, issuerFilter, Except.bind, bind]
          refine congrArg Except.ok ?_
          simp only [List.filter_filter]
          refine List.filter_congr ?_
          intro x hx
          simp [matchesAllFilters, eqPred, minPred, maxPred, issuerPred, hminl, hmaxl,
            hissl, Bool.and_assoc, Bool.and_comm, Bool.and_left_comm]
        | none =>
          simp only [cmpFilter, issuerFilter, Except.bind, bind]
          refine congrArg Except.ok ?_
          simp only [List.filter_filter]
          refine List.filter_congr ?_
          intro x hx
          simp [matchesAllFilters, eqPred, minPred, maxPred, issuerPred, hminl, hmaxl,
            hissl, Bool.and_assoc, Bool.and_comm, Bool.and_left_comm]
    | none =>
      cases hmaxl : lookupF fs "max_nominal_value" with
      | some v' =>
        obtain ⟨q', rfl⟩ := hmax v' hmaxl
        cases hissl : lookupF fs "issuer" with
        | some v'' =>
          obtain ⟨s, rfl⟩ := hiss v'' hissl
          simp only [cmpFilter, issuerFilter, Except.bind, bind]
          refine congrArg Except.ok ?_
          simp only [List.filter_filter]
          refine List.filter_congr ?_
          intro x hx
          simp [matchesAllFilters, eqPred, minPred, maxPred, issuerPred, hminl, hmaxl,
            hissl, Bool.and_assoc, Bool.and_comm, Bool.and_left_comm]
        | none =>
          simp only [cmpFilter, issuerFilter, Except.bind, bind]
          refine congrArg Except.ok ?_
          simp only [List.filter_filter]
          refine List.filter_congr ?_
          intro x hx
          simp [matchesAllFilters, eqPred, minPred, maxPred, issuerPred, hminl, hmaxl,
            hissl, Bool.and_assoc, Bool.and_comm, Bool.and_left_comm]
      | none =>
        cases hissl : lookupF fs "issuer" with
        | some v'' =>
          obtain ⟨s, rfl⟩ := hiss v'' hissl
          simp only [cmpFilter, issuerFilter, Except.bind, bind]
          refine congrArg Except.ok ?_
          simp only [List.filter_filter]
          refine List.filter_congr ?_
          intro x hx
          simp [matchesAllFilters, eqPred, minPred, maxPred, issuerPred, hminl, hmaxl,
            hissl, Bool.and_assoc, Bool.and_comm, Bool.and_left_comm]
        | none =>
          simp only [cmpFilter, issuerFilter, Except.bind, bind]
          refine congrArg Except.ok ?_
          simp only [List.filter_filter]
          refine List.filter_congr ?_
          intro x hx
          simp [matchesAllFilters, eqPred, minPred, maxPred, issuerPred, hminl, hmaxl,
            hissl, Bool.and_assoc, Bool.and_comm, Bool.and_left_comm]
  · intro k v hk
    apply getFilteredProducts_lookup_congr
    intro k' hk'
    exact lookupF_cons_ne k v fs k' (fun he => hk (he ▸ hk'))

/-- Witness for C6: the spec's country-filter scenario on the two-record
collection, with well-typed filter values. -/
theorem get_filtered_products_conjunction_witness :
    getFilteredProducts [("country", FVal.str "FR")] coll2.products =
        Except.ok (coll2.products.filter (matchesAllFilters [("country", FVal.str "FR")])) ∧
    (coll2.products.filter
        (matchesAllFilters [("country", FVal.str "FR")])).Sublist coll2.products ∧
    (∀ (k : String) (v : FVal), k ∉ knownFilterKeys →
      getFilteredProducts ((k, v) :: [("country", FVal.str "FR")]) coll2.products =
        getFilteredProducts [("country", FVal.str "FR")] coll2.products) ∧
    coll2.products.filter (matchesAllFilters [("country", FVal.str "FR")]) = [sampleFR] :=
  ⟨(get_filtered_products_conjunction [("country", FVal.str "FR")] coll2.products
      (by intro v h; simp [lookupF, lookupA, List.find?] at h)
      (by intro v h; simp [lookupF, lookupA, List.find?] at h)
      (by intro v h; simp [lookupF, lookupA, List.find?] at h)).1,
    (get_filtered_products_conjunction [("country", FVal.str "FR")] coll2.products
      (by intro v h; simp [lookupF, lookupA, List.find?] at h)
      (by intro v h; simp [lookupF, lookupA, List.find?] at h)
      (by intro v h; simp [lookupF, lookupA, List.find?] at h)).2.1,
    (get_filtered_products_conjunction [("country", FVal.str "FR")] coll2.products
      (by intro v h; simp [lookupF, lookupA, List.find?] at h)
      (by intro v h; simp [lookupF, lookupA, List.find?] at h)
      (by intro v h; simp [lookupF, lookupA, List.find?] at h)).2.2,
    by rfl⟩

/-- C5 amended: every non-empty partition of each categorical dimension gets
a statistics bundle with count, sum and mean of nominal values; the
country, currency and product-type bundles carry a risk-level frequency
distribution, the risk-level bundles none; each bundle carries the distinct
values of the other categorical dimensions apart from a separate distinct
risk-level set (covered only by the frequency distribution); empty
partitions are omitted. -/
theorem breakdown_bundles (l : SRPProductList) :
    (∀ (c : Country) (q : List SRPProduct),
      q = l.products.filter (fun p => p.country = c) →
      (q ≠ [] →
        lookupA (analyzeProducts initialAnalysis l).by_country c =
            some (countryStats q) ∧
        bundleHasBasics (countryStats q) q ∧
        bundleHasDistinct (countryStats q) "currencies"
          (q.map (fun p => p.currency.value)) ∧
        bundleHasDistinct (countryStats q) "product_types"
          (q.map (fun p => p.product_type.value)) ∧
        bundleHasRiskDist (countryStats q) (q.map (fun p => p.risk_level.value))) ∧
      (q = [] → lookupA (analyzeProducts initialAnalysis l).by_country c = none)) ∧
    (∀ (c : Currency) (q : List SRPProduct),
      q = l.products.filter (fun p => p.currency = c) →
      (q ≠ [] →
        lookupA (analyzeProducts initialAnalysis l).by_currency c =
            some (currencyStats q) ∧
        bundleHasBasics (currencyStats q) q ∧
        bundleHasDistinct (currencyStats q) "countries"
          (q.map (fun p => p.country.value)) ∧
        bundleHasDistinct (currencyStats q) "product_types"
          (q.map (fun p => p.product_type.value)) ∧
        bundleHasRiskDist (currencyStats q) (q.map (fun p => p.risk_level.value))) ∧
      (q = [] → lookupA (analyzeProducts initialAnalysis l).by_currency c = none)) ∧
    (∀ (r : RiskLevel) (q : List SRPProduct),
      q = l.products.filter (fun p => p.risk_level = r) →
      (q ≠ [] →
        lookupA (analyzeProducts initialAnalysis l).by_risk_level r =
            some (riskStats q) ∧
        bundleHasBasics (riskStats q) q ∧
        bundleHasDistinct (riskStats q) "countries" (q.map (fun p => p.country.value)) ∧
        bundleHasDistinct (riskStats q) "currencies" (q.map (fun p => p.currency.value)) ∧
        bundleHasDistinct (riskStats q) "product_types"
          (q.map (fun p => p.product_type.value)) ∧
        lookupA (riskStats q) "risk_distribution" = none) ∧
      (q = [] → lookupA (analyzeProducts initialAnalysis l).by_risk_level r = none)) ∧
    (∀ (t : ProductType) (q : List SRPProduct),
      q = l.products.filter (fun p => p.product_type = t) →
      (q ≠ [] →
        lookupA (analyzeProducts initialAnalysis l).by_product_type t =
            some (typeStats q) ∧
        bundleHasBasics (typeStats q) q ∧
        bundleHasDistinct (typeStats q) "countries" (q.map (fun p => p.country.value)) ∧
        bundleHasDistinct (typeStats q) "currencies" (q.map (fun p => p.currency.value)) ∧
        bundleHasRiskDist (typeStats q) (q.map (fun p => p.risk_level.value))) ∧
      (q = [] → lookupA (analyzeProducts initialAnalysis l).by_product_type t = none)) := by
  cases hps : l.products.isEmpty
  · have hbc : (analyzeProducts initialAnalysis l).by_country =
        analyzeDim Country.all (fun p => p.country) countryStats l.products [] := by
      simp [analyzeProducts, hps, initialAnalysis]
    have hcu : (analyzeProducts initialAnalysis l).by_currency =
        analyzeDim Currency.all (fun p => p.currency) currencyStats l.products [] := by
      simp [analyzeProducts, hps, initialAnalysis]
    have hrl : (analyzeProducts initialAnalysis l).by_risk_level =
        analyzeDim RiskLevel.all (fun p => p.risk_level) riskStats l.products [] := by
      simp [analyzeProducts, hps, initialAnalysis]
    have hpt : (analyzeProducts initialAnalysis l).by_product_type =
        analyzeDim ProductType.all (fun p => p.product_type) typeStats l.products [] := by
      simp [analyzeProducts, hps, initialAnalysis]
    refine ⟨?_, ?_, ?_, ?_⟩
    · intro c q hq
      subst hq
      constructor
      · intro hne
        refine ⟨?_, (countryStats_facts _).1, (countryStats_facts _).2.1,
          (countryStats_facts _).2.2.1, (countryStats_facts _).2.2.2⟩
        rw [hbc, lookupA_dim_of_analyze _ _ _ _ c (by cases c <;> simp [Country.all]),
          if_pos hne]
      · intro hqe
        rw [hbc, lookupA_dim_of_analyze _ _ _ _ c (by cases c <;> simp [Country.all]),
          if_neg (fun hh => hh hqe)]
    · intro c q hq
      subst hq
      constructor
      · intro hne
        refine ⟨?_, (currencyStats_facts _).1, (currencyStats_facts _).2.1,
          (currencyStats_facts _).2.2.1, (currencyStats_facts _).2.2.2⟩
        rw [hcu, lookupA_dim_of_analyze _ _ _ _ c (by cases c <;> simp [Currency.all]),
          if_pos hne]
      · intro hqe
        rw [hcu, lookupA_dim_of_analyze _ _ _ _ c (by cases c <;> simp [Currency.all]),
          if_neg (fun hh => hh hqe)]
    · intro r q hq
      subst hq
      constructor
      · intro hne
        refine ⟨?_, (riskStats_facts _).1, (riskStats_facts _).2.1,
          (riskStats_facts _).2.2.1, (riskStats_facts _).2.2.2.1,
          (riskStats_facts _).2.2.2.2⟩
        rw [hrl, lookupA_dim_of_analyze _ _ _ _ r (by cases r <;> simp [RiskLevel.all]),
          if_pos hne]
      · intro hqe
        rw [hrl, lookupA_dim_of_analyze _ _ _ _ r (by cases r <;> simp [RiskLevel.all]),
          if_neg (fun hh => hh hqe)]
    · intro t q hq
      subst hq
      constructor
      · intro hne
        refine ⟨?_, (typeStats_facts _).1, (typeStats_facts _).2.1,
          (typeStats_facts _).2.2.1, (typeStats_facts _).2.2.2⟩
        rw [hpt, lookupA_dim_of_analyze _ _ _ _ t (by cases t <;> simp [ProductType.all]),
          if_pos hne]
      · intro hqe
        rw [hpt, lookupA_dim_of_analyze _ _ _ _ t (by cases t <;> simp [ProductType.all]),
          if_neg (fun hh => hh hqe)]
  · have hpe : l.products = [] := List.isEmpty_iff.mp hps
    have hinit : analyzeProducts initialAnalysis l = initialAnalysis := by
      simp [analyzeProducts, hps]
    refine ⟨?_, ?_, ?_, ?_⟩ <;>
      · intro c q hq
        rw [hpe] at hq
        simp only [List.filter_nil] at hq
        subst hq
        exact ⟨fun hne => absurd rfl hne, fun _ => by rw [hinit]; rfl⟩

/-- Witness for C5's amended statement: the France partition of the two-record
sample collection. -/
theorem breakdown_bundles_witness :
    ([sampleFR] = coll2.products.filter (fun p => p.country = Country.FRANCE)) ∧
    ([sampleFR] ≠ []) ∧
    (lookupA (analyzeProducts initialAnalysis coll2).by_country Country.FRANCE =
        some (countryStats [sampleFR]) ∧
      bundleHasBasics (countryStats [sampleFR]) [sampleFR] ∧
      bundleHasDistinct (countryStats [sampleFR]) "currencies"
        ([sampleFR].map (fun p => p.currency.value)) ∧
      bundleHasDistinct (countryStats [sampleFR]) "product_types"
        ([sampleFR].map (fun p => p.product_type.value)) ∧
      bundleHasRiskDist (countryStats [sampleFR])
        ([sampleFR].map (fun p => p.risk_level.value))) :=
  ⟨by rfl, by decide,
    ((breakdown_bundles coll2).1 Country.FRANCE [sampleFR] (by rfl)).1 (by decide)⟩

/-- C5 counterexample: the risk-level bundle of a one-record collection
carries no risk-level frequency distribution, so the claim that every
dimension's statistics bundle contains one fails on the risk-level
dimension. -/
theorem risk_bundle_has_no_distribution :
    lookupA (analyzeProducts initialAnalysis collFR).by_risk_level RiskLevel.MEDIUM =
      some (riskStats [sampleFR]) ∧
    lookupA (riskStats [sampleFR]) "risk_distribution" = none := by
  exact ⟨by rfl, by rfl⟩

/-- Witness for C4 on a one-record collection, instantiating the per-entry
facts at the first ranked entry. -/
theorem top_issuers_ranking_witness :
    (analyzeProducts initialAnalysis collFR).top_issuers ≠ [] ∧
    ((analyzeProducts initialAnalysis collFR).top_issuers.headI.issuer ∈
        collFR.products.map (fun p => p.issuer) ∧
      (analyzeProducts initialAnalysis collFR).top_issuers.headI.count =
        (collFR.products.filter (fun p =>
          p.issuer = (analyzeProducts initialAnalysis collFR).top_issuers.headI.issuer)).length ∧
      (analyzeProducts initialAnalysis collFR).top_issuers.headI.total_value =
        sumNominal (collFR.products.filter (fun p =>
          p.issuer = (analyzeProducts initialAnalysis collFR).top_issuers.headI.issuer)) ∧
      (analyzeProducts initialAnalysis collFR).top_issuers.headI.average_value =
        (analyzeProducts initialAnalysis collFR).top_issuers.headI.total_value /
          ((analyzeProducts initialAnalysis collFR).top_issuers.headI.count : ℚ) ∧
      (∀ s, s ∈ (analyzeProducts initialAnalysis collFR).top_issuers.headI.countries ↔
        s ∈ (collFR.products.filter (fun p =>
            p.issuer = (analyzeProducts initialAnalysis collFR).top_issuers.headI.issuer)).map
          (fun p => p.country.value)) ∧
      (∀ s, s ∈ (analyzeProducts initialAnalysis collFR).top_issuers.headI.currencies ↔
        s ∈ (collFR.products.filter (fun p =>
            p.issuer = (analyzeProducts initialAnalysis collFR).top_issuers.headI.issuer)).map
          (fun p => p.currency.value)) ∧
      (∀ s, s ∈ (analyzeProducts initialAnalysis collFR).top_issuers.headI.product_types ↔
        s ∈ (collFR.products.filter (fun p =>
            p.issuer = (analyzeProducts initialAnalysis collFR).top_issuers.headI.issuer)).map
          (fun p => p.product_type.value))) :=
  ⟨by decide,
    (top_issuers_ranking collFR).2.2 _ (headI_mem _ (by decide))⟩

/-- C8 counterexample: two analyzers given equal collections (both empty)
return different results when one of them carries the analysis of an earlier
collection, so the result is not wholly determined by the analysed
collection. -/
theorem analyzer_state_leaks :
    analyzeProducts (analyzeProducts initialAnalysis collFR) emptyColl ≠
      analyzeProducts initialAnalysis emptyColl := by
  intro h
  have h1 : (analyzeProducts (analyzeProducts initialAnalysis collFR)
      emptyColl).total_products = 1 := rfl
  rw [h] at h1
  exact absurd h1 (by decide)

/-- C8 amended: the scalar statistics and the top-issuer ranking of the
result are wholly determined by a non-empty analysed collection, whatever
the analyzer's prior state; the breakdown maps and the result for an empty
collection additionally depend on the prior analysis state. -/
theorem scalars_and_ranking_state_independent (st st' : SRPAnalysis)
    (l : SRPProductList) (h : l.products ≠ []) :
    (analyzeProducts st l).total_products = (analyzeProducts st' l).total_products ∧
    (analyzeProducts st l).total_value = (analyzeProducts st' l).total_value ∧
    (analyzeProducts st l).average_nominal_value =
      (analyzeProducts st' l).average_nominal_value ∧
    (analyzeProducts st l).top_issuers = (analyzeProducts st' l).top_issuers := by
  have hne : l.products.isEmpty = false := by
    cases hps : l.products with
    | nil => exact absurd hps h
    | cons p ps => rfl
  simp [analyzeProducts, hne]

/-- Witness for C8's amended statement on a concrete non-empty collection and
two different prior states. -/
theorem scalars_and_ranking_state_independent_witness :
    collBE.products ≠ [] ∧
    ((analyzeProducts (analyzeProducts initialAnalysis collFR) collBE).total_products =
        (analyzeProducts initialAnalysis collBE).total_products ∧
      (analyzeProducts (analyzeProducts initialAnalysis collFR) collBE).total_value =
        (analyzeProducts initialAnalysis collBE).total_value ∧
      (analyzeProducts (analyzeProducts initialAnalysis collFR)
            collBE).average_nominal_value =
        (analyzeProducts initialAnalysis collBE).average_nominal_value ∧
      (analyzeProducts (analyzeProducts initialAnalysis collFR) collBE).top_issuers =
        (analyzeProducts initialAnalysis collBE).top_issuers) :=
  ⟨by decide,
    scalars_and_ranking_state_independent (analyzeProducts initialAnalysis collFR)
      initialAnalysis collBE (by decide)⟩

/-- C9 amended: the report carries the header with the generation timestamp,
the overall-statistics section, one subsection per non-empty breakdown among
the country, currency and risk-level dimensions plus the issuer table when
non-empty; it is a pure function of the aggregation result that never reads
the product-type or monthly breakdowns, and the only no-data placeholder is
the whole-report one returned when `total_products` is zero. -/
theorem report_structure (a : SRPAnalysis) (t : String) :
    (a.total_products = 0 → generateReport a t = "<p>Aucune donnée à analyser</p>") ∧
    (a.total_products ≠ 0 →
      strContainsSub (generateReport a t) ("Généré le " ++ t) = true ∧
      strContainsSub (generateReport a t) "Statistiques générales" = true ∧
      (a.by_country ≠ [] →
        strContainsSub (generateReport a t) "Analyse par pays" = true) ∧
      (a.by_currency ≠ [] →
        strContainsSub (generateReport a t) "Analyse par devise" = true) ∧
      (a.by_risk_level ≠ [] →
        strContainsSub (generateReport a t) "Analyse par niveau de risque" = true) ∧
      (a.top_issuers ≠ [] →
        strContainsSub (generateReport a t) "Principaux émetteurs" = true)) ∧
    (∀ bpt me, generateHTMLReport
        { a with by_product_type := bpt, monthly_evolution := me } t =
      generateHTMLReport a t) := by
  refine ⟨?_, ?_, fun bpt me => rfl⟩
  · intro h
    simp [generateReport, h]
  · intro h
    have hrep : generateReport a t = generateHTMLReport a t := by
      simp [generateReport, h]
    rw [hrep]
    have hhead : ∀ n : String, strContainsSub (reportHead a t) n = true →
        strContainsSub (generateHTMLReport a t) n = true := by
      intro n hn
      unfold generateHTMLReport
      apply strContainsSub_append_of_left
      apply strContainsSub_append_of_left
      apply strContainsSub_append_of_left
      apply strContainsSub_append_of_left
      apply strContainsSub_append_of_left
      exact hn
    refine ⟨?_, ?_, ?_, ?_, ?_, ?_⟩
    · apply hhead
      unfold reportHead
      apply strContainsSub_append_of_left
      apply strContainsSub_append_of_right
      exact strContainsSub_self _
    · apply hhead
      unfold reportHead
      apply strContainsSub_append_of_right
      unfold reportHeadPost
      apply strContainsSub_append_of_left
      apply strContainsSub_append_of_left
      apply strContainsSub_append_of_left
      apply strContainsSub_append_of_left
      apply strContainsSub_append_of_right
      decide
    · intro hne
      have hemp : a.by_country.isEmpty = false := by
        cases hcc : a.by_country with
        | nil => exact absurd hcc hne
        | cons c cs => rfl
      unfold generateHTMLReport
      apply strContainsSub_append_of_left
      apply strContainsSub_append_of_left
      apply strContainsSub_append_of_left
      apply strContainsSub_append_of_left
      apply strContainsSub_append_of_right
      rw [hemp]
      simp only [Bool.false_eq_true, if_false]
      unfold generateCountrySection
      apply strContainsSub_append_of_left
      apply strContainsSub_append_of_left
      decide
    · intro hne
      have hemp : a.by_currency.isEmpty = false := by
        cases hcc : a.by_currency with
        | nil => exact absurd hcc hne
        | cons c cs => rfl
      unfold generateHTMLReport
      apply strContainsSub_append_of_left
      apply strContainsSub_append_of_left
      apply strContainsSub_append_of_left
      apply strContainsSub_append_of_right
      rw [hemp]
      simp only [Bool.false_eq_true, if_false]
      unfold generateCurrencySection
      apply strContainsSub_append_of_left
      apply strContainsSub_append_of_left
      decide
    · intro hne
      have hemp : a.by_risk_level.isEmpty = false := by
        cases hcc : a.by_risk_level with
        | nil => exact absurd hcc hne
        | cons c cs => rfl
      unfold generateHTMLReport
      apply strContainsSub_append_of_left
      apply strContainsSub_append_of_left
      apply strContainsSub_append_of_right
      rw [hemp]
      simp only [Bool.false_eq_true, if_false]
      unfold generateRiskSection
      apply strContainsSub_append_of_left
      apply strContainsSub_append_of_left
      decide
    · intro hne
      have hemp : a.top_issuers.isEmpty = false := by
        cases hcc : a.top_issuers with
        | nil => exact absurd hcc hne
        | cons c cs => rfl
      unfold generateHTMLReport
      apply strContainsSub_append_of_left
      apply strContainsSub_append_of_right
      rw [hemp]
      simp only [Bool.false_eq_true, if_false]
      unfold generateIssuersSection
      apply strContainsSub_append_of_left
      apply strContainsSub_append_of_left
      apply strContainsSub_append_of_left
      decide

set_option maxRecDepth 80000 in
set_option maxHeartbeats 1000000 in
/-- C9 counterexample: for an aggregation result with a non-zero product
count and an empty country breakdown, the report contains neither a country
section nor any no-data placeholder — the empty dimension is omitted
silently, refuting the per-dimension placeholder claim. -/
theorem empty_dimension_renders_nothing :
    analysisNoDims.by_country = [] ∧
    analysisNoDims.total_products ≠ 0 ∧
    strContainsSub (generateReport analysisNoDims "T") "Analyse par pays" = false ∧
    strContainsSub (generateReport analysisNoDims "T") "Aucune donnée" = false ∧
    strContainsSub (generateReport analysisNoDims "T") "no data" = false := by
  refine ⟨rfl, by decide, by decide, by decide, by decide⟩

/-- Witness for C9's amended statement on a computed two-record analysis. -/
theorem report_structure_witness :
    (analyzeProducts initialAnalysis coll2).total_products ≠ 0 ∧
    (analyzeProducts initialAnalysis coll2).by_country ≠ [] ∧
    strContainsSub (generateReport (analyzeProducts initialAnalysis coll2) "15/08/2024")
      ("Généré le " ++ "15/08/2024") = true ∧
    strContainsSub (generateReport (analyzeProducts initialAnalysis coll2) "15/08/2024")
      "Analyse par pays" = true :=
  ⟨by decide, by decide,
    ((report_structure (analyzeProducts initialAnalysis coll2) "15/08/2024").2.1
      (by decide)).1,
    (((report_structure (analyzeProducts initialAnalysis coll2) "15/08/2024").2.1
      (by decide)).2.2.1) (by decide)⟩

end SRP
